import Mathlib

/-!
# Qosmetics-Sabers: the trail spline (`src/Trail/Spline.cpp`)

A shallow embedding of `Spline` and of the control points it owns.

* Scalars: the C++ `float` and `double` values are elements of an ordered field `α`
  (exact arithmetic, no rounding); the theorems about lengths are stated over `ℝ`
  with the Euclidean `Magnitude`.  A quotient is the quotient of the field; where a
  theorem evaluates one, the divisor is shown to be non-zero.
* Objects: `controlPoints` is the list of the control point objects, in insertion
  order.  `segments` holds shared pointers to some of those objects; a pointer is
  the position of its object in `controlPoints`, so a write through a segment is seen
  through `controlPoints` and conversely.
* A method that takes a `SplineControlPoint*` only reads the object, and takes it
  by value; a method that returns a `SplineControlPoint*` returns the designated
  object (`none` for `nullptr`).
* `int` values are integers (the sizes in question stay far below `2^31`); an `int`
  compared with a `size()` is first converted to unsigned, which is made explicit in
  `Spline.sizeLE` and `Spline.vectorAt`.
* Undefined behaviour and the exception of `std::vector::at` are the two values of
  `Fault`.
* `SplineControlPoint.cpp` is not among the sources: the fields of a control point,
  `IsValid`, `Interpolate` and `InterpolateNormal` follow the specification.
-/

namespace Qosmetics

/-- The type `Sombrero::FastVector3`: three scalar components. -/
structure FastVector3 (α : Type) where
  x : α
  y : α
  z : α
deriving DecidableEq, Repr

namespace FastVector3

variable {α : Type}

/-- The constant `FastVector3::zero()`. -/
def zero [Zero α] : FastVector3 α := ⟨0, 0, 0⟩

/-- The constant `FastVector3::up()`. -/
def up [Zero α] [One α] : FastVector3 α := ⟨0, 1, 0⟩

/-- Componentwise difference, `operator-`. -/
def sub [Sub α] (a b : FastVector3 α) : FastVector3 α :=
  ⟨a.x - b.x, a.y - b.y, a.z - b.z⟩

instance [Sub α] : Sub (FastVector3 α) := ⟨sub⟩

end FastVector3

/-- The function `Sombrero::Clamp01`. -/
def Clamp01 {α : Type} [LinearOrderedField α] (t : α) : α :=
  if t < 0 then 0 else if t > 1 then 1 else t

/-- The Euclidean length `FastVector3::Magnitude`, `sqrt (x*x + y*y + z*z)`, in exact
real arithmetic. -/
noncomputable def Magnitude (v : FastVector3 ℝ) : ℝ :=
  Real.sqrt (v.x * v.x + v.y * v.y + v.z * v.z)

/-- The ways a call can fail: undefined behaviour (`back()` of an empty vector, a
null or invalid pointer dereferenced) and `std::out_of_range` thrown by `at`. -/
inductive Fault where
  | undefinedBehaviour
  | outOfRange
deriving DecidableEq, Repr

/-- The fields of `SplineControlPoint`.

Modelled from the spec: the class declaration (`Trail/SplineControlPoint.hpp`) is
not among the sources.  `valid` is the answer of `IsValid()`, an externally
supplied criterion. -/
structure SplineControlPoint (α : Type) where
  Position : FastVector3 α
  Normal : FastVector3 α
  ControlPointIndex : Int
  SegmentIndex : Int
  Dist : α
  valid : Bool
deriving DecidableEq, Repr

/-- Modelled from the spec: `SplineControlPoint::IsValid()` is not among the sources;
it is the predicate that admits a control point as a segment. -/
def SplineControlPoint.IsValid {α : Type} (cp : SplineControlPoint α) : Bool :=
  cp.valid

/-- The state of a `Spline`: the owned control points and the pointers `segments`
into them. -/
structure Spline (α : Type) where
  controlPoints : List (SplineControlPoint α)
  segments : List Nat
deriving DecidableEq, Repr

namespace Spline

variable {α : Type}

/-- A newly constructed spline (`Reserve` only reserves capacity). -/
def new : Spline α := ⟨[], []⟩

/-- The segments as objects: every pointer of `segments` resolved in `controlPoints`
(a pointer that designates no control point, which `Spline.WF` excludes, is skipped). -/
def segmentPoints (s : Spline α) : List (SplineControlPoint α) :=
  s.segments.filterMap (fun p => s.controlPoints[p]?)

/-- The comparison `i >= size` of an `int` with a `size_t`: the `int` is converted to
unsigned, so a negative `i` compares as a huge value. -/
def sizeLE (size : Nat) (i : Int) : Bool :=
  decide (i < 0) || decide (size ≤ i.toNat)

/-- The call `v.at(i)` with an `int` index: the index is converted to `size_type` and
checked, `std::out_of_range` is thrown when it is not below `size()`. -/
def vectorAt {β : Type} (v : List β) (i : Int) : Except Fault β :=
  if i < 0 then .error .outOfRange
  else
    match v[i.toNat]? with
    | some b => .ok b
    | none => .error .outOfRange

/-- The method `Spline::operator[]`. -/
def subscript (s : Spline α) (index : Int) : Option (SplineControlPoint α) :=
  if index > -1 ∧ index.toNat < s.segments.length then
    (s.segments[index.toNat]?).bind (fun p => s.controlPoints[p]?)
  else none

/-- The method `Spline::NextControlPoint`. -/
def NextControlPoint (s : Spline α) (controlPoint : SplineControlPoint α) :
    Except Fault (Option (SplineControlPoint α)) :=
  if s.controlPoints.length = 0 then .ok none
  else
    let i : Int := controlPoint.ControlPointIndex + 1
    if sizeLE s.controlPoints.length i then .ok none
    else (vectorAt s.controlPoints i).map some

/-- The method `Spline::PreviousControlPoint`. -/
def PreviousControlPoint (s : Spline α) (controlPoint : SplineControlPoint α) :
    Except Fault (Option (SplineControlPoint α)) :=
  if s.controlPoints.length = 0 then .ok none
  else
    let i : Int := controlPoint.ControlPointIndex - 1
    if i < 0 then .ok none
    else (vectorAt s.controlPoints i).map some

/-- The method `Spline::NextPosition`. -/
def NextPosition (s : Spline α) (controlPoint : SplineControlPoint α) :
    Except Fault (FastVector3 α) :=
  let i : Int := controlPoint.ControlPointIndex + 1
  if sizeLE s.controlPoints.length i then .ok controlPoint.Position
  else (vectorAt s.controlPoints i).map (fun c => c.Position)

/-- The method `Spline::PreviousPosition`. -/
def PreviousPosition (s : Spline α) (controlPoint : SplineControlPoint α) :
    Except Fault (FastVector3 α) :=
  let i : Int := controlPoint.ControlPointIndex - 1
  if i < 0 then .ok controlPoint.Position
  else (vectorAt s.controlPoints i).map (fun c => c.Position)

/-- The method `Spline::NextNormal`. -/
def NextNormal (s : Spline α) (controlPoint : SplineControlPoint α) :
    Except Fault (FastVector3 α) :=
  let i : Int := controlPoint.ControlPointIndex + 1
  if sizeLE s.controlPoints.length i then .ok controlPoint.Normal
  else (vectorAt s.controlPoints i).map (fun c => c.Normal)

/-- The method `Spline::PreviousNormal`. -/
def PreviousNormal (s : Spline α) (controlPoint : SplineControlPoint α) :
    Except Fault (FastVector3 α) :=
  let i : Int := controlPoint.ControlPointIndex - 1
  if i < 0 then .ok controlPoint.Normal
  else (vectorAt s.controlPoints i).map (fun c => c.Normal)

/-- The range-for of `LenToSegment`: the first segment with `Dist >= len` (or
`nullptr`) and the value of `index` when the loop is left. -/
def scan [LinearOrderedField α] (len : α) :
    List (SplineControlPoint α) → Nat → Option (SplineControlPoint α) × Nat
  | [], index => (none, index)
  | test :: rest, index =>
    if test.Dist ≥ len then (some test, index) else scan len rest (index + 1)

/-- The method `Spline::LenToSegment`; the pair is the returned pointer and the value
left in `localF`. -/
def LenToSegment [LinearOrderedField α] (s : Spline α) (t : α) :
    Except Fault (Option (SplineControlPoint α) × α) :=
  match s.segmentPoints.getLast? with
  | none => .error .undefinedBehaviour
  | some back =>
    let len := Clamp01 t * back.Dist
    let found := scan len s.segmentPoints 0
    if found.2 = 0 then .ok (found.1, 0)
    else
      match found.1 with
      | none => .error .undefinedBehaviour
      | some seg =>
        let prevIdx : Int := seg.SegmentIndex - 1
        match vectorAt s.segmentPoints prevIdx with
        | .error e => .error e
        | .ok prevSeg =>
          let prevLen := seg.Dist - prevSeg.Dist
          .ok (some prevSeg, (len - prevSeg.Dist) / prevLen)

/-- The method `Spline::CatmulRom`; the narrowing to `float` is the identity in exact
arithmetic. -/
def CatmulRom [LinearOrderedField α] (T0 P0 P1 T1 : FastVector3 α) (f : α) :
    FastVector3 α :=
  let DT1 : α := -0.5
  let DT2 : α := 1.5
  let DT3 : α := -1.5
  let DT4 : α := 0.5
  let DE2 : α := -2.5
  let DE3 : α := 2
  let DE4 : α := -0.5
  let DV1 : α := -0.5
  let DV3 : α := 0.5
  let FAX := DT1 * T0.x + DT2 * P0.x + DT3 * P1.x + DT4 * T1.x
  let FBX := T0.x + DE2 * P0.x + DE3 * P1.x + DE4 * T1.x
  let FCX := DV1 * T0.x + DV3 * P1.x
  let FDX := P0.x
  let FAY := DT1 * T0.y + DT2 * P0.y + DT3 * P1.y + DT4 * T1.y
  let FBY := T0.y + DE2 * P0.y + DE3 * P1.y + DE4 * T1.y
  let FCY := DV1 * T0.y + DV3 * P1.y
  let FDY := P0.y
  let FAZ := DT1 * T0.z + DT2 * P0.z + DT3 * P1.z + DT4 * T1.z
  let FBZ := T0.z + DE2 * P0.z + DE3 * P1.z + DE4 * T1.z
  let FCZ := DV1 * T0.z + DV3 * P1.z
  let FDZ := P0.z
  let FX := ((FAX * f + FBX) * f + FCX) * f + FDX
  let FY := ((FAY * f + FBY) * f + FCY) * f + FDY
  let FZ := ((FAZ * f + FBZ) * f + FCZ) * f + FDZ
  ⟨FX, FY, FZ⟩

/-- Modelled from the spec: the position "next of next" of `SplineControlPoint::Interpolate`
(not among the sources): the next position of the next control point, and the
next position of the point itself when it has no next control point. -/
def Next2Position (s : Spline α) (cp : SplineControlPoint α) :
    Except Fault (FastVector3 α) :=
  match s.NextControlPoint cp with
  | .error e => .error e
  | .ok (some next) => s.NextPosition next
  | .ok none => s.NextPosition cp

/-- Modelled from the spec: the normal "next of next" of
`SplineControlPoint::InterpolateNormal` (not among the sources). -/
def Next2Normal (s : Spline α) (cp : SplineControlPoint α) :
    Except Fault (FastVector3 α) :=
  match s.NextControlPoint cp with
  | .error e => .error e
  | .ok (some next) => s.NextNormal next
  | .ok none => s.NextNormal cp

/-- Modelled from the spec: `SplineControlPoint::Interpolate` is not among the sources;
it is the Catmull-Rom blend over previous, this, next and next-of-next position. -/
def Interpolate [LinearOrderedField α] (s : Spline α) (cp : SplineControlPoint α)
    (localF : α) : Except Fault (FastVector3 α) :=
  match s.PreviousPosition cp, s.NextPosition cp, s.Next2Position cp with
  | .ok previous, .ok next, .ok next2 => .ok (CatmulRom previous cp.Position next next2 localF)
  | .error e, _, _ => .error e
  | _, .error e, _ => .error e
  | _, _, .error e => .error e

/-- Modelled from the spec: `SplineControlPoint::InterpolateNormal` is not among the
sources; it is the Catmull-Rom blend over previous, this, next and next-of-next normal. -/
def InterpolateNormal [LinearOrderedField α] (s : Spline α) (cp : SplineControlPoint α)
    (localF : α) : Except Fault (FastVector3 α) :=
  match s.PreviousNormal cp, s.NextNormal cp, s.Next2Normal cp with
  | .ok previous, .ok next, .ok next2 => .ok (CatmulRom previous cp.Normal next next2 localF)
  | .error e, _, _ => .error e
  | _, .error e, _ => .error e
  | _, _, .error e => .error e

/-- The method `Spline::InterpolateByLen`. -/
def InterpolateByLen [LinearOrderedField α] (s : Spline α) (tl : α) :
    Except Fault (FastVector3 α) :=
  match s.LenToSegment tl with
  | .error e => .error e
  | .ok (none, _) => .ok FastVector3.zero
  | .ok (some seg, localF) => s.Interpolate seg localF

/-- The method `Spline::InterpolateNormalByLen`. -/
def InterpolateNormalByLen [LinearOrderedField α] (s : Spline α) (tl : α) :
    Except Fault (FastVector3 α) :=
  match s.LenToSegment tl with
  | .error e => .error e
  | .ok (none, _) => .ok FastVector3.up
  | .ok (some seg, localF) => s.InterpolateNormal seg localF

/-- The method `Spline::AddControlPoint`.  `fresh` is the object that
`make_shared<SplineControlPoint>()` and `Init` produce (their code is not among the
sources); the result is the new state and the returned object. -/
def AddControlPoint (s : Spline α) (fresh : SplineControlPoint α)
    (pos up : FastVector3 α) : Spline α × SplineControlPoint α :=
  let cp := { fresh with Position := pos, Normal := up }
  let pushed := s.controlPoints ++ [cp]
  let cp := { cp with ControlPointIndex := (pushed.length : Int) - 1 }
  ({ s with controlPoints := s.controlPoints ++ [cp] }, cp)

/-- The method `Spline::Clear`. -/
def Clear (_s : Spline α) : Spline α := ⟨[], []⟩

/-- The write `p->Dist = d` through the pointer `p`. -/
def setDist (cps : List (SplineControlPoint α)) (p : Nat) (d : α) :
    List (SplineControlPoint α) :=
  match cps[p]? with
  | some c => cps.set p { c with Dist := d }
  | none => cps

/-- The `for` loop of `RefreshDistance`: `prev` is `segments[i - 1]` and the list
holds `segments[i]`, `segments[i + 1]`, ... -/
def distanceLoop [Add α] [Sub α] (mag : FastVector3 α → α) :
    Nat → List Nat → List (SplineControlPoint α) → List (SplineControlPoint α)
  | _, [], cps => cps
  | prev, cur :: rest, cps =>
    match cps[cur]?, cps[prev]? with
    | some c, some p =>
      let prevLen := mag (c.Position - p.Position)
      distanceLoop mag cur rest (setDist cps cur (p.Dist + prevLen))
    | _, _ => cps

/-- The method `Spline::RefreshDistance`; `mag` is `FastVector3::Magnitude`. -/
def RefreshDistance [Zero α] [Add α] [Sub α] (mag : FastVector3 α → α) (s : Spline α) :
    Spline α :=
  match s.segments with
  | [] => s
  | first :: rest =>
    { s with controlPoints := distanceLoop mag first rest (setDist s.controlPoints first 0) }

/-- The range-for of `RefreshSpline` over the control points from position `p` on,
`size` being the number of segments pushed so far: the control points with their
`SegmentIndex` written, and the pointers pushed. -/
def refreshLoop :
    List (SplineControlPoint α) → Nat → Nat → List (SplineControlPoint α) × List Nat
  | [], _, _ => ([], [])
  | point :: rest, p, size =>
    if point.IsValid then
      let r := refreshLoop rest (p + 1) (size + 1)
      ({ point with SegmentIndex := (size : Int) } :: r.1, p :: r.2)
    else
      let r := refreshLoop rest (p + 1) size
      (point :: r.1, r.2)

/-- The method `Spline::RefreshSpline`; `mag` is `FastVector3::Magnitude`. -/
def RefreshSpline [Zero α] [Add α] [Sub α] (mag : FastVector3 α → α) (s : Spline α) :
    Spline α :=
  let r := refreshLoop s.controlPoints 0 0
  RefreshDistance mag { controlPoints := r.1, segments := r.2 }

end Spline

/-! ### Notions used by the statements -/

/-- The control point after `SegmentIndex` and `Dist` were written. -/
def SplineControlPoint.written {α : Type} (c : SplineControlPoint α) (segmentIndex : Int)
    (dist : α) : SplineControlPoint α :=
  { c with SegmentIndex := segmentIndex, Dist := dist }

/-- Everything of a control point but `Dist`. -/
def SplineControlPoint.fixedPart {α : Type} (c : SplineControlPoint α) :
    FastVector3 α × FastVector3 α × Int × Int × Bool :=
  (c.Position, c.Normal, c.ControlPointIndex, c.SegmentIndex, c.valid)

/-- The fields of a control point that `RefreshSpline` does not write. -/
def SplineControlPoint.authored {α : Type} (c : SplineControlPoint α) :
    FastVector3 α × FastVector3 α × Int × Bool :=
  (c.Position, c.Normal, c.ControlPointIndex, c.valid)

namespace Spline

variable {α : Type}

/-- The pointers of `segments` are pairwise distinct and designate objects of
`controlPoints`: they are shared pointers to control points the spline owns, each
pushed once by `RefreshSpline`. -/
def WF (s : Spline α) : Prop :=
  s.segments.Nodup ∧ ∀ p ∈ s.segments, p < s.controlPoints.length

/-- Every control point carries its position in `controlPoints` as
`ControlPointIndex`, as `AddControlPoint` assigns it. -/
def Indexed (s : Spline α) : Prop :=
  s.controlPoints.map (fun c => c.ControlPointIndex)
    = (List.range s.controlPoints.length).map (fun (i : Nat) => (i : Int))

/-- The relation `RefreshDistance` establishes between consecutive segments. -/
def DistStep [Add α] [Sub α] (mag : FastVector3 α → α) (a b : SplineControlPoint α) : Prop :=
  b.Dist = a.Dist + mag (b.Position - a.Position)

/-- The positions, counted from `p`, of the valid control points of a list. -/
def validHandles : List (SplineControlPoint α) → Nat → List Nat
  | [], _ => []
  | c :: rest, p => if c.IsValid then p :: validHandles rest (p + 1) else validHandles rest (p + 1)

/-- What `RefreshSpline` establishes on the segments: the first distance is zero, every
other distance is the previous one plus the length of the chord, and `SegmentIndex`
numbers the segments. -/
def Fresh [Zero α] [Add α] [Sub α] (mag : FastVector3 α → α)
    (segs : List (SplineControlPoint α)) : Prop :=
  (∀ c, segs.head? = some c → c.Dist = 0) ∧ List.Chain' (DistStep mag) segs ∧
    ∀ (i : Nat) (c : SplineControlPoint α), segs[i]? = some c → c.SegmentIndex = (i : Int)

/-- A control point at `(x, 0, 0)` with normal `(0, 1, 0)`. -/
def axisPoint {α : Type} [LinearOrderedField α] (x : α) (controlPointIndex segmentIndex : Int)
    (dist : α) (valid : Bool) : SplineControlPoint α :=
  { Position := ⟨x, 0, 0⟩, Normal := ⟨0, 1, 0⟩, ControlPointIndex := controlPointIndex,
    SegmentIndex := segmentIndex, Dist := dist, valid := valid }

/-- Control points at `(0,0,0)`, `(5,0,0)` and `(1,0,0)`, the middle one invalid, as
three calls of `AddControlPoint` leave them. -/
def exampleGap (α : Type) [LinearOrderedField α] : Spline α :=
  { controlPoints :=
      [axisPoint 0 0 (-1) 0 true, axisPoint 5 1 (-1) 0 false, axisPoint 1 2 (-1) 0 true],
    segments := [] }

/-- The state `RefreshSpline` makes of `exampleGap`: the segments are the first and
the last control point, at distances 0 and 1. -/
def exampleGapRefreshed (α : Type) [LinearOrderedField α] : Spline α :=
  { controlPoints :=
      [axisPoint 0 0 0 0 true, axisPoint 5 1 (-1) 0 false, axisPoint 1 2 1 1 true],
    segments := [0, 2] }

/-- Control points at `(0,0,0)`, `(1,0,0)`, `(2,0,0)` and `(3,0,0)`, all valid, as four
calls of `AddControlPoint` leave them. -/
def exampleLine (α : Type) [LinearOrderedField α] : Spline α :=
  { controlPoints :=
      [axisPoint 0 0 (-1) 0 true, axisPoint 1 1 (-1) 0 true, axisPoint 2 2 (-1) 0 true,
       axisPoint 3 3 (-1) 0 true],
    segments := [] }

/-- Two valid control points, at `(0,0,0)` and `(4,0,0)`. -/
def exampleTwo (α : Type) [LinearOrderedField α] : Spline α :=
  { controlPoints := [axisPoint 0 0 (-1) 0 true, axisPoint 4 1 (-1) 0 true],
    segments := [] }

/-- The states of a spline that the operations `AddControlPoint`, `RefreshSpline` and
`Clear` produce from a newly constructed one. -/
inductive Reachable {α : Type} [Zero α] [Add α] [Sub α] (mag : FastVector3 α → α) :
    Spline α → Prop
  | constructed : Reachable mag Spline.new
  | addControlPoint (s : Spline α) (fresh : SplineControlPoint α) (pos up : FastVector3 α) :
      Reachable mag s → Reachable mag (s.AddControlPoint fresh pos up).1
  | refreshSpline (s : Spline α) : Reachable mag s → Reachable mag (RefreshSpline mag s)
  | clear (s : Spline α) : Reachable mag s → Reachable mag s.Clear

/-- The state `RefreshSpline` makes of `exampleLine`: every control point is a segment,
at distances 0, 1, 2 and 3. -/
def exampleLineRefreshed (α : Type) [LinearOrderedField α] : Spline α :=
  { controlPoints :=
      [axisPoint 0 0 0 0 true, axisPoint 1 1 1 1 true, axisPoint 2 2 2 2 true,
       axisPoint 3 3 3 3 true],
    segments := [0, 1, 2, 3] }

end Spline

/-! ## Lemmas -/

namespace Spline

variable {α : Type}

theorem setDist_length (cps : List (SplineControlPoint α)) (p : Nat) (d : α) :
    (setDist cps p d).length = cps.length := by
  unfold setDist
  split <;> simp

theorem setDist_getElem?_ne (cps : List (SplineControlPoint α)) {p q : Nat} (d : α)
    (h : p ≠ q) : (setDist cps p d)[q]? = cps[q]? := by
  unfold setDist
  split
  · simp [List.getElem?_set, h]
  · rfl

theorem setDist_getElem?_eq (cps : List (SplineControlPoint α)) {p : Nat} (d : α)
    {c : SplineControlPoint α} (h : cps[p]? = some c) :
    (setDist cps p d)[p]? = some { c with Dist := d } := by
  have hp : p < cps.length := (List.getElem?_eq_some.1 h).1
  unfold setDist
  rw [h]
  simp [List.getElem?_set, hp]

theorem setDist_fixedPart (cps : List (SplineControlPoint α)) (p : Nat) (d : α) :
    (setDist cps p d).map SplineControlPoint.fixedPart
      = cps.map SplineControlPoint.fixedPart := by
  apply List.ext_getElem?
  intro q
  by_cases hq : p = q
  · subst hq
    cases h : cps[p]? with
    | none => simp [setDist, h]
    | some c => simp [setDist_getElem?_eq cps d h, h, SplineControlPoint.fixedPart]
  · simp [setDist_getElem?_ne cps d hq]

section
variable [Add α] [Sub α] (mag : FastVector3 α → α)

theorem distanceLoop_length (rest : List Nat) :
    ∀ (prev : Nat) (cps : List (SplineControlPoint α)),
      (distanceLoop mag prev rest cps).length = cps.length := by
  induction rest with
  | nil => intro prev cps; rfl
  | cons cur rest ih =>
    intro prev cps
    unfold distanceLoop
    split
    · rw [ih, setDist_length]
    · rfl

theorem distanceLoop_fixedPart (rest : List Nat) :
    ∀ (prev : Nat) (cps : List (SplineControlPoint α)),
      (distanceLoop mag prev rest cps).map SplineControlPoint.fixedPart
        = cps.map SplineControlPoint.fixedPart := by
  induction rest with
  | nil => intro prev cps; rfl
  | cons cur rest ih =>
    intro prev cps
    unfold distanceLoop
    split
    · rw [ih, setDist_fixedPart]
    · rfl

theorem distanceLoop_getElem?_of_not_mem (rest : List Nat) :
    ∀ (prev : Nat) (cps : List (SplineControlPoint α)) (q : Nat), q ∉ rest →
      (distanceLoop mag prev rest cps)[q]? = cps[q]? := by
  induction rest with
  | nil => intro prev cps q _; rfl
  | cons cur rest ih =>
    intro prev cps q hq
    have hne : cur ≠ q := fun h => hq (h ▸ List.mem_cons_self _ _)
    have hq2 : q ∉ rest := fun h => hq (List.mem_cons_of_mem _ h)
    unfold distanceLoop
    split
    · rw [ih _ _ _ hq2, setDist_getElem?_ne _ _ hne]
    · rfl

theorem distanceLoop_chain (rest : List Nat) :
    ∀ (prev : Nat) (cps : List (SplineControlPoint α)),
      (prev :: rest).Nodup → (∀ p ∈ prev :: rest, p < cps.length) →
      List.Chain' (DistStep mag)
        ((prev :: rest).filterMap (fun p => (distanceLoop mag prev rest cps)[p]?)) := by
  induction rest with
  | nil =>
    intro prev cps _ hr
    have hp : prev < cps.length := hr prev (List.mem_cons_self _ _)
    simp [distanceLoop, List.getElem?_eq_getElem hp]
  | cons cur rest ih =>
    intro prev cps hnd hr
    have hp : prev < cps.length := hr prev (List.mem_cons_self _ _)
    have hc : cur < cps.length := hr cur (by simp)
    have hnd2 : (cur :: rest).Nodup := (List.nodup_cons.1 hnd).2
    have hprev : prev ∉ cur :: rest := (List.nodup_cons.1 hnd).1
    have hcur : cur ∉ rest := (List.nodup_cons.1 hnd2).1
    have hpc : cur ≠ prev := fun h => hprev (h ▸ List.mem_cons_self _ _)
    have hprest : prev ∉ rest := fun h => hprev (List.mem_cons_of_mem _ h)
    have e1 : cps[cur]? = some cps[cur] := List.getElem?_eq_getElem hc
    have e2 : cps[prev]? = some cps[prev] := List.getElem?_eq_getElem hp
    have hstep : distanceLoop mag prev (cur :: rest) cps
        = distanceLoop mag cur rest
            (setDist cps cur (cps[prev].Dist + mag (cps[cur].Position - cps[prev].Position))) := by
      rw [distanceLoop, e1, e2]
    rw [hstep]
    set cps1 := setDist cps cur (cps[prev].Dist + mag (cps[cur].Position - cps[prev].Position))
      with hcps1
    have hr1 : ∀ p ∈ cur :: rest, p < cps1.length := by
      intro p hpm
      rw [hcps1, setDist_length]
      exact hr p (List.mem_cons_of_mem _ hpm)
    have hih := ih cur cps1 hnd2 hr1
    have hgp : (distanceLoop mag cur rest cps1)[prev]? = some cps[prev] := by
      rw [distanceLoop_getElem?_of_not_mem mag rest cur cps1 prev hprest, hcps1,
        setDist_getElem?_ne _ _ hpc, e2]
    have hgc : (distanceLoop mag cur rest cps1)[cur]?
        = some { cps[cur] with
            Dist := cps[prev].Dist + mag (cps[cur].Position - cps[prev].Position) } := by
      rw [distanceLoop_getElem?_of_not_mem mag rest cur cps1 cur hcur, hcps1,
        setDist_getElem?_eq _ _ e1]
    rw [List.filterMap_cons_some hgp]
    rw [List.filterMap_cons_some hgc] at hih ⊢
    rw [List.chain'_cons]
    exact ⟨rfl, hih⟩

end

theorem filterMap_getElem?_of_lt {β : Type} (cps : List β) (l : List Nat)
    (h : ∀ p ∈ l, p < cps.length) (i : Nat) :
    (l.filterMap (fun p => cps[p]?))[i]? = (l[i]?).bind (fun p => cps[p]?) := by
  induction l generalizing i with
  | nil => simp
  | cons p l ih =>
    have hp : p < cps.length := h p (List.mem_cons_self _ _)
    have e : cps[p]? = some cps[p] := List.getElem?_eq_getElem hp
    rw [List.filterMap_cons_some e]
    cases i with
    | zero => simp [e]
    | succ i =>
      simp only [List.getElem?_cons_succ]
      exact ih (fun q hq => h q (List.mem_cons_of_mem _ hq)) i

theorem filterMap_length_of_lt {β : Type} (cps : List β) (l : List Nat)
    (h : ∀ p ∈ l, p < cps.length) :
    (l.filterMap (fun p => cps[p]?)).length = l.length := by
  induction l with
  | nil => simp
  | cons p l ih =>
    have hp : p < cps.length := h p (List.mem_cons_self _ _)
    have e : cps[p]? = some cps[p] := List.getElem?_eq_getElem hp
    rw [List.filterMap_cons_some e]
    simp [ih (fun q hq => h q (List.mem_cons_of_mem _ hq))]

theorem segmentPoints_length (s : Spline α) (h : s.WF) :
    s.segmentPoints.length = s.segments.length :=
  filterMap_length_of_lt _ _ h.2

section
variable [Zero α] [Add α] [Sub α] (mag : FastVector3 α → α)

theorem RefreshDistance_segments (s : Spline α) :
    (RefreshDistance mag s).segments = s.segments := by
  unfold RefreshDistance
  split <;> rfl

theorem RefreshDistance_fixedPart (s : Spline α) :
    (RefreshDistance mag s).controlPoints.map SplineControlPoint.fixedPart
      = s.controlPoints.map SplineControlPoint.fixedPart := by
  unfold RefreshDistance
  split
  · rfl
  · simp only [distanceLoop_fixedPart, setDist_fixedPart]

theorem RefreshDistance_length (s : Spline α) :
    (RefreshDistance mag s).controlPoints.length = s.controlPoints.length := by
  have h := congrArg List.length (RefreshDistance_fixedPart mag s)
  simpa using h

theorem RefreshDistance_WF (s : Spline α) (h : s.WF) : (RefreshDistance mag s).WF := by
  unfold WF
  rw [RefreshDistance_segments, RefreshDistance_length]
  exact h

theorem RefreshDistance_chain (s : Spline α) (h : s.WF) :
    List.Chain' (DistStep mag) (RefreshDistance mag s).segmentPoints := by
  unfold segmentPoints
  rw [RefreshDistance_segments]
  cases hs : s.segments with
  | nil => simp
  | cons first rest =>
    have hnd : (first :: rest).Nodup := hs ▸ h.1
    have hr : ∀ p ∈ first :: rest, p < (setDist s.controlPoints first 0).length := by
      intro p hp
      rw [setDist_length]
      exact h.2 p (hs ▸ hp)
    have e : (RefreshDistance mag s).controlPoints
        = distanceLoop mag first rest (setDist s.controlPoints first 0) := by
      simp [RefreshDistance, hs]
    rw [e]
    exact distanceLoop_chain mag rest first _ hnd hr

theorem RefreshDistance_head (s : Spline α) (h : s.WF) (hne : s.segments ≠ []) :
    ∃ c, (RefreshDistance mag s).segmentPoints.head? = some c ∧ c.Dist = 0 := by
  unfold segmentPoints
  rw [RefreshDistance_segments]
  cases hs : s.segments with
  | nil => exact absurd hs hne
  | cons first rest =>
    have hnd : (first :: rest).Nodup := hs ▸ h.1
    have hf : first < s.controlPoints.length := h.2 first (hs ▸ List.mem_cons_self _ _)
    have e1 : s.controlPoints[first]? = some s.controlPoints[first] :=
      List.getElem?_eq_getElem hf
    have e : (RefreshDistance mag s).controlPoints
        = distanceLoop mag first rest (setDist s.controlPoints first 0) := by
      simp [RefreshDistance, hs]
    have hg : (RefreshDistance mag s).controlPoints[first]?
        = some { s.controlPoints[first] with Dist := 0 } := by
      rw [e, distanceLoop_getElem?_of_not_mem mag rest first _ first (List.nodup_cons.1 hnd).1,
        setDist_getElem?_eq _ _ e1]
    rw [List.filterMap_cons_some hg]
    exact ⟨_, rfl, rfl⟩

end

/-! ### The loop of `RefreshSpline` -/

theorem refreshLoop_segments (cps : List (SplineControlPoint α)) :
    ∀ p size, (refreshLoop cps p size).2 = validHandles cps p := by
  induction cps with
  | nil => intro p size; rfl
  | cons c rest ih =>
    intro p size
    by_cases hv : c.IsValid = true
    · simp [refreshLoop, validHandles, hv, ih]
    · simp [refreshLoop, validHandles, hv, ih]

theorem refreshLoop_valid (cps : List (SplineControlPoint α)) :
    ∀ p size, (refreshLoop cps p size).1.map SplineControlPoint.IsValid
      = cps.map SplineControlPoint.IsValid := by
  induction cps with
  | nil => intro p size; rfl
  | cons c rest ih =>
    intro p size
    by_cases hv : c.IsValid = true
    · have hv2 : SplineControlPoint.IsValid { c with SegmentIndex := (size : Int) }
          = c.IsValid := rfl
      simp [refreshLoop, hv, ih, hv2]
    · simp [refreshLoop, hv, ih]

theorem validHandles_congr :
    ∀ (l l' : List (SplineControlPoint α)) (p : Nat),
      l.map SplineControlPoint.IsValid = l'.map SplineControlPoint.IsValid →
      validHandles l p = validHandles l' p := by
  intro l
  induction l with
  | nil =>
    intro l' p h
    cases l' with
    | nil => rfl
    | cons _ _ => simp at h
  | cons c rest ih =>
    intro l' p h
    cases l' with
    | nil => simp at h
    | cons c' rest' =>
      simp only [List.map_cons, List.cons.injEq] at h
      simp [validHandles, h.1, ih rest' (p + 1) h.2]

theorem validHandles_bounds (l : List (SplineControlPoint α)) :
    ∀ p q, q ∈ validHandles l p → p ≤ q ∧ q < p + l.length := by
  induction l with
  | nil => intro p q h; simp [validHandles] at h
  | cons c rest ih =>
    intro p q h
    unfold validHandles at h
    split at h
    · rcases List.mem_cons.1 h with h | h
      · subst h; simp
      · have := ih _ _ h
        simp only [List.length_cons]
        omega
    · have := ih _ _ h
      simp only [List.length_cons]
      omega

theorem validHandles_nodup (l : List (SplineControlPoint α)) :
    ∀ p, (validHandles l p).Nodup := by
  induction l with
  | nil => intro p; simp [validHandles]
  | cons c rest ih =>
    intro p
    unfold validHandles
    split
    · refine List.nodup_cons.2 ⟨fun h => ?_, ih _⟩
      have := (validHandles_bounds rest _ _ h).1
      omega
    · exact ih _

theorem validHandles_filterMap (l : List (SplineControlPoint α)) :
    ∀ (pre : List (SplineControlPoint α)),
      (validHandles l pre.length).filterMap (fun q => (pre ++ l)[q]?)
        = l.filter SplineControlPoint.IsValid := by
  induction l with
  | nil => intro pre; simp [validHandles]
  | cons c rest ih =>
    intro pre
    have ih2 := ih (pre ++ [c])
    simp only [List.length_append, List.length_singleton, List.append_assoc,
      List.singleton_append] at ih2
    by_cases hv : c.IsValid = true
    · have e : (pre ++ c :: rest)[pre.length]? = some c := by
        rw [List.getElem?_append_right (Nat.le_refl _)]
        simp
      simp only [validHandles, hv, if_true, List.filter_cons_of_pos]
      rw [List.filterMap_cons_some e, ih2]
    · simp only [validHandles, hv]
      simp only [Bool.false_eq_true, if_false]
      rw [ih2]
      simp [hv]

theorem refreshLoop_segmentIndex (cps : List (SplineControlPoint α)) :
    ∀ (p size i : Nat) (c : SplineControlPoint α),
      ((refreshLoop cps p size).1.filter SplineControlPoint.IsValid)[i]? = some c →
      c.SegmentIndex = ((size + i : Nat) : Int) := by
  induction cps with
  | nil => intro p size i c h; simp [refreshLoop] at h
  | cons pt rest ih =>
    intro p size i c h
    by_cases hv : pt.IsValid = true
    · have hv2 : SplineControlPoint.IsValid { pt with SegmentIndex := (size : Int) } = true := hv
      simp only [refreshLoop, hv, if_true] at h
      rw [List.filter_cons_of_pos hv2] at h
      cases i with
      | zero =>
        simp only [List.getElem?_cons_zero, Option.some.injEq] at h
        subst h
        simp
      | succ i =>
        simp only [List.getElem?_cons_succ] at h
        have := ih _ _ _ _ h
        rw [this]
        congr 1
        omega
    · simp only [refreshLoop, hv] at h
      simp only [Bool.false_eq_true, if_false] at h
      rw [List.filter_cons_of_neg hv] at h
      exact ih _ _ _ _ h

theorem refreshLoop_rest (cps : List (SplineControlPoint α)) :
    ∀ p size, (refreshLoop cps p size).1.map
        (fun c => (c.Position, c.Normal, c.ControlPointIndex, c.Dist, c.valid))
      = cps.map (fun c => (c.Position, c.Normal, c.ControlPointIndex, c.Dist, c.valid)) := by
  induction cps with
  | nil => intro p size; rfl
  | cons c rest ih =>
    intro p size
    by_cases hv : c.IsValid = true
    · simp [refreshLoop, hv, ih]
    · simp [refreshLoop, hv, ih]

theorem filter_isValid_fixedPart (l l' : List (SplineControlPoint α))
    (h : l.map SplineControlPoint.fixedPart = l'.map SplineControlPoint.fixedPart) :
    (l.filter SplineControlPoint.IsValid).map SplineControlPoint.fixedPart
      = (l'.filter SplineControlPoint.IsValid).map SplineControlPoint.fixedPart := by
  have e : ∀ m : List (SplineControlPoint α),
      (m.filter SplineControlPoint.IsValid).map SplineControlPoint.fixedPart
        = (m.map SplineControlPoint.fixedPart).filter (fun fp => fp.2.2.2.2) := by
    intro m
    rw [List.filter_map]
    rfl
  rw [e, e, h]

theorem map_isValid_of_fixedPart (l l' : List (SplineControlPoint α))
    (h : l.map SplineControlPoint.fixedPart = l'.map SplineControlPoint.fixedPart) :
    l.map SplineControlPoint.IsValid = l'.map SplineControlPoint.IsValid := by
  have e : ∀ m : List (SplineControlPoint α),
      m.map SplineControlPoint.IsValid
        = (m.map SplineControlPoint.fixedPart).map (fun fp => fp.2.2.2.2) := by
    intro m
    rw [List.map_map]
    rfl
  rw [e, e, h]

theorem map_authored_of_fixedPart (l l' : List (SplineControlPoint α))
    (h : l.map SplineControlPoint.fixedPart = l'.map SplineControlPoint.fixedPart) :
    l.map SplineControlPoint.authored = l'.map SplineControlPoint.authored := by
  have e : ∀ m : List (SplineControlPoint α),
      m.map SplineControlPoint.authored
        = (m.map SplineControlPoint.fixedPart).map
            (fun fp => (fp.1, fp.2.1, fp.2.2.1, fp.2.2.2.2)) := by
    intro m
    rw [List.map_map]
    rfl
  rw [e, e, h]

theorem refreshLoop_authored (cps : List (SplineControlPoint α)) (p size : Nat) :
    (refreshLoop cps p size).1.map SplineControlPoint.authored
      = cps.map SplineControlPoint.authored := by
  have h := congrArg (List.map (fun t : FastVector3 α × FastVector3 α × Int × α × Bool =>
    (t.1, t.2.1, t.2.2.1, t.2.2.2.2))) (refreshLoop_rest cps p size)
  simpa [List.map_map, Function.comp_def, SplineControlPoint.authored] using h

theorem refreshed_WF (s : Spline α) :
    WF { controlPoints := (refreshLoop s.controlPoints 0 0).1,
         segments := (refreshLoop s.controlPoints 0 0).2 } := by
  have hl : (refreshLoop s.controlPoints 0 0).1.length = s.controlPoints.length := by
    simpa using congrArg List.length (refreshLoop_valid s.controlPoints 0 0)
  refine ⟨?_, ?_⟩
  · simp only [refreshLoop_segments]
    exact validHandles_nodup _ _
  · intro p hp
    simp only [refreshLoop_segments] at hp
    have := (validHandles_bounds _ _ _ hp).2
    simp only [hl]
    omega

section
variable [Zero α] [Add α] [Sub α] (mag : FastVector3 α → α)

theorem RefreshSpline_eq (s : Spline α) :
    RefreshSpline mag s = RefreshDistance mag
      { controlPoints := (refreshLoop s.controlPoints 0 0).1,
        segments := (refreshLoop s.controlPoints 0 0).2 } := rfl

theorem RefreshSpline_WF (s : Spline α) : (RefreshSpline mag s).WF :=
  RefreshDistance_WF mag _ (refreshed_WF s)

theorem RefreshSpline_authored (s : Spline α) :
    (RefreshSpline mag s).controlPoints.map SplineControlPoint.authored
      = s.controlPoints.map SplineControlPoint.authored := by
  rw [RefreshSpline_eq, map_authored_of_fixedPart _ _ (RefreshDistance_fixedPart mag _)]
  exact refreshLoop_authored _ _ _

theorem RefreshSpline_isValid (s : Spline α) :
    (RefreshSpline mag s).controlPoints.map SplineControlPoint.IsValid
      = s.controlPoints.map SplineControlPoint.IsValid := by
  rw [RefreshSpline_eq, map_isValid_of_fixedPart _ _ (RefreshDistance_fixedPart mag _)]
  exact refreshLoop_valid _ _ _

theorem RefreshSpline_segments (s : Spline α) :
    (RefreshSpline mag s).segments = validHandles (RefreshSpline mag s).controlPoints 0 := by
  rw [validHandles_congr _ _ 0 (RefreshSpline_isValid mag s), RefreshSpline_eq,
    RefreshDistance_segments]
  exact refreshLoop_segments _ _ _

theorem RefreshSpline_segmentPoints (s : Spline α) :
    (RefreshSpline mag s).segmentPoints
      = (RefreshSpline mag s).controlPoints.filter SplineControlPoint.IsValid := by
  have h := validHandles_filterMap (RefreshSpline mag s).controlPoints []
  simp only [List.length_nil, List.nil_append] at h
  rw [← h, ← RefreshSpline_segments]
  rfl

theorem RefreshSpline_segmentIndex (s : Spline α) (i : Nat) (c : SplineControlPoint α)
    (h : (RefreshSpline mag s).segmentPoints[i]? = some c) : c.SegmentIndex = (i : Int) := by
  rw [RefreshSpline_segmentPoints] at h
  have hfp := filter_isValid_fixedPart _ _
    (RefreshDistance_fixedPart mag
      { controlPoints := (refreshLoop s.controlPoints 0 0).1,
        segments := (refreshLoop s.controlPoints 0 0).2 })
  rw [← RefreshSpline_eq] at hfp
  have h1 := congrArg (fun l => l[i]?) hfp
  simp only [List.getElem?_map, h, Option.map_some'] at h1
  cases h2 : ((refreshLoop s.controlPoints 0 0).1.filter SplineControlPoint.IsValid)[i]? with
  | none => simp [h2] at h1
  | some c' =>
    have h3 := refreshLoop_segmentIndex _ _ _ _ _ h2
    simp only [h2, Option.map_some', Option.some.injEq] at h1
    have h4 : c.SegmentIndex = c'.SegmentIndex := by
      have := congrArg (fun fp => fp.2.2.2.1) h1
      simpa [SplineControlPoint.fixedPart] using this
    rw [h4, h3]
    simp

theorem RefreshSpline_chain (s : Spline α) :
    List.Chain' (DistStep mag) (RefreshSpline mag s).segmentPoints :=
  RefreshDistance_chain mag _ (refreshed_WF s)

theorem RefreshSpline_head (s : Spline α) (hne : (RefreshSpline mag s).segments ≠ []) :
    ∃ c, (RefreshSpline mag s).segmentPoints.head? = some c ∧ c.Dist = 0 := by
  apply RefreshDistance_head mag _ (refreshed_WF s)
  rw [RefreshSpline_eq, RefreshDistance_segments] at hne
  exact hne

end

theorem RefreshSpline_fresh [Zero α] [Add α] [Sub α] (mag : FastVector3 α → α) (s : Spline α) :
    Fresh mag (RefreshSpline mag s).segmentPoints := by
  refine ⟨?_, RefreshSpline_chain mag s, RefreshSpline_segmentIndex mag s⟩
  intro c hc
  by_cases hne : (RefreshSpline mag s).segments = []
  · simp [segmentPoints, hne] at hc
  · obtain ⟨c', h1, h2⟩ := RefreshSpline_head mag s hne
    rw [h1] at hc
    cases hc
    exact h2

section
variable [LinearOrderedField α]

theorem Clamp01_nonneg (t : α) : 0 ≤ Clamp01 t := by
  unfold Clamp01
  split_ifs with h1 h2
  · exact le_refl _
  · exact zero_le_one
  · exact not_lt.1 h1

theorem Clamp01_le_one (t : α) : Clamp01 t ≤ 1 := by
  unfold Clamp01
  split_ifs with h1 h2
  · exact zero_le_one
  · exact le_refl _
  · exact not_lt.1 h2

theorem Clamp01_of_mem {t : α} (h0 : 0 ≤ t) (h1 : t ≤ 1) : Clamp01 t = t := by
  unfold Clamp01
  rw [if_neg (not_lt.2 h0), if_neg (not_lt.2 h1)]

variable (mag : FastVector3 α → α)

theorem fresh_mono (hmag : ∀ v, 0 ≤ mag v) {segs : List (SplineControlPoint α)}
    (hf : Fresh mag segs) {i j : Nat} {a b : SplineControlPoint α} (hij : i ≤ j)
    (ha : segs[i]? = some a) (hb : segs[j]? = some b) : a.Dist ≤ b.Dist := by
  rcases Nat.eq_or_lt_of_le hij with h | h
  · subst h
    rw [ha] at hb
    cases hb
    exact le_refl _
  · have hc : List.Chain' (fun x y : α => x ≤ y) (segs.map (fun c => c.Dist)) := by
      rw [List.chain'_map]
      refine List.Chain'.imp ?_ hf.2.1
      intro x y hxy
      unfold DistStep at hxy
      rw [hxy]
      exact le_add_of_nonneg_right (hmag _)
    have hp := List.chain'_iff_pairwise.1 hc
    rw [List.pairwise_iff_getElem] at hp
    obtain ⟨hi, hai⟩ := List.getElem?_eq_some.1 ha
    obtain ⟨hj, hbj⟩ := List.getElem?_eq_some.1 hb
    have := hp i j (by simpa using hi) (by simpa using hj) h
    simpa [hai, hbj] using this

theorem fresh_nonneg (hmag : ∀ v, 0 ≤ mag v) {segs : List (SplineControlPoint α)}
    (hf : Fresh mag segs) {i : Nat} {c : SplineControlPoint α} (hc : segs[i]? = some c) :
    0 ≤ c.Dist := by
  have hlen : 0 < segs.length := by
    have := (List.getElem?_eq_some.1 hc).1
    omega
  have h0 : segs[0]? = some segs[0] := List.getElem?_eq_getElem hlen
  have hd : segs[0].Dist = 0 := by
    apply hf.1
    rw [List.head?_eq_getElem?, h0]
  have := fresh_mono mag hmag hf (Nat.zero_le i) h0 hc
  rwa [hd] at this

theorem scan_found (len : α) (l : List (SplineControlPoint α)) :
    ∀ index, (∃ c ∈ l, len ≤ c.Dist) →
      ∃ k seg, l[k]? = some seg ∧ len ≤ seg.Dist ∧
        (∀ j c, j < k → l[j]? = some c → c.Dist < len) ∧
        scan len l index = (some seg, index + k) := by
  induction l with
  | nil => intro index h; simp at h
  | cons test rest ih =>
    intro index h
    by_cases ht : len ≤ test.Dist
    · refine ⟨0, test, by simp, ht, ?_, ?_⟩
      · intro j c hj; omega
      · simp [scan, ht]
    · have h2 : ∃ c ∈ rest, len ≤ c.Dist := by
        obtain ⟨c, hc, hl⟩ := h
        rcases List.mem_cons.1 hc with e | e
        · subst e; exact absurd hl ht
        · exact ⟨c, e, hl⟩
      obtain ⟨k, seg, hk, hseg, hleast, hscan⟩ := ih (index + 1) h2
      refine ⟨k + 1, seg, by simpa using hk, hseg, ?_, ?_⟩
      · intro j c hj hc
        cases j with
        | zero =>
          simp only [List.getElem?_cons_zero, Option.some.injEq] at hc
          subst hc
          exact not_le.1 ht
        | succ j =>
          simp only [List.getElem?_cons_succ] at hc
          exact hleast j c (by omega) hc
      · simp only [scan, ge_iff_le, ht, if_false]
        rw [hscan]
        congr 1
        omega

theorem vectorAt_natCast {β : Type} (v : List β) (k : Nat) (b : β) (h : v[k]? = some b) :
    vectorAt v (k : Int) = .ok b := by
  unfold vectorAt
  have : ¬ ((k : Int) < 0) := by omega
  rw [if_neg this]
  simp [h]

theorem LenToSegment_fresh (hmag : ∀ v, 0 ≤ mag v) (s : Spline α)
    (hf : Fresh mag s.segmentPoints) (t : α) (back : SplineControlPoint α)
    (hb : s.segmentPoints.getLast? = some back) :
    ∃ k seg, s.segmentPoints[k]? = some seg ∧ Clamp01 t * back.Dist ≤ seg.Dist ∧
      (∀ j c, j < k → s.segmentPoints[j]? = some c → c.Dist < Clamp01 t * back.Dist) ∧
      (k = 0 → s.LenToSegment t = .ok (some seg, 0)) ∧
      (k ≠ 0 → ∃ prev, s.segmentPoints[k - 1]? = some prev ∧
        s.LenToSegment t
          = .ok (some prev, (Clamp01 t * back.Dist - prev.Dist) / (seg.Dist - prev.Dist))) := by
  have hbi : s.segmentPoints[s.segmentPoints.length - 1]? = some back := by
    rw [← List.getLast?_eq_getElem?]; exact hb
  have hback0 : 0 ≤ back.Dist := fresh_nonneg mag hmag hf hbi
  have hlen : Clamp01 t * back.Dist ≤ back.Dist := by
    have := mul_le_mul_of_nonneg_right (Clamp01_le_one t) hback0
    simpa using this
  have hex : ∃ c ∈ s.segmentPoints, Clamp01 t * back.Dist ≤ c.Dist :=
    ⟨back, List.getElem?_mem hbi, hlen⟩
  obtain ⟨k, seg, hk, hseg, hleast, hscan⟩ := scan_found (Clamp01 t * back.Dist) _ 0 hex
  refine ⟨k, seg, hk, hseg, hleast, ?_, ?_⟩
  · intro hk0
    subst hk0
    unfold LenToSegment
    simp only [hb, hscan]
    simp
  · intro hk0
    have hklt : k < s.segmentPoints.length := (List.getElem?_eq_some.1 hk).1
    have hk1 : k - 1 < s.segmentPoints.length := by omega
    refine ⟨s.segmentPoints[k - 1], List.getElem?_eq_getElem hk1, ?_⟩
    have hidx : seg.SegmentIndex - 1 = ((k - 1 : Nat) : Int) := by
      rw [hf.2.2 k seg hk]
      omega
    unfold LenToSegment
    simp only [hb, hscan, Nat.zero_add, if_neg hk0, hidx]
    rw [vectorAt_natCast _ _ _ (List.getElem?_eq_getElem hk1)]

end

/-! ### The Euclidean length -/

theorem FastVector3_sub_x {α : Type} [Sub α] (a b : FastVector3 α) : (a - b).x = a.x - b.x := rfl

theorem FastVector3_sub_y {α : Type} [Sub α] (a b : FastVector3 α) : (a - b).y = a.y - b.y := rfl

theorem FastVector3_sub_z {α : Type} [Sub α] (a b : FastVector3 α) : (a - b).z = a.z - b.z := rfl

theorem Magnitude_nonneg (v : FastVector3 ℝ) : 0 ≤ Magnitude v := Real.sqrt_nonneg _

theorem Magnitude_sub_eq_zero_iff (a b : FastVector3 ℝ) : Magnitude (b - a) = 0 ↔ a = b := by
  unfold Magnitude
  have hnn : 0 ≤ (b - a).x * (b - a).x + (b - a).y * (b - a).y + (b - a).z * (b - a).z := by
    nlinarith [mul_self_nonneg (b - a).x, mul_self_nonneg (b - a).y, mul_self_nonneg (b - a).z]
  rw [Real.sqrt_eq_zero hnn]
  simp only [FastVector3_sub_x, FastVector3_sub_y, FastVector3_sub_z]
  constructor
  · intro h
    have hx : (b.x - a.x) * (b.x - a.x) = 0 := by
      nlinarith [mul_self_nonneg (b.x - a.x), mul_self_nonneg (b.y - a.y),
        mul_self_nonneg (b.z - a.z)]
    have hy : (b.y - a.y) * (b.y - a.y) = 0 := by
      nlinarith [mul_self_nonneg (b.x - a.x), mul_self_nonneg (b.y - a.y),
        mul_self_nonneg (b.z - a.z)]
    have hz : (b.z - a.z) * (b.z - a.z) = 0 := by
      nlinarith [mul_self_nonneg (b.x - a.x), mul_self_nonneg (b.y - a.y),
        mul_self_nonneg (b.z - a.z)]
    have ex : a.x = b.x := by
      have := mul_self_eq_zero.1 hx; linarith
    have ey : a.y = b.y := by
      have := mul_self_eq_zero.1 hy; linarith
    have ez : a.z = b.z := by
      have := mul_self_eq_zero.1 hz; linarith
    cases a; cases b
    simp_all
  · intro h
    subst h
    simp

theorem segmentPoints_fixedPart {α : Type} (cps cps' : List (SplineControlPoint α))
    (l : List Nat)
    (h : cps'.map SplineControlPoint.fixedPart = cps.map SplineControlPoint.fixedPart) :
    (l.filterMap (fun p => cps'[p]?)).map SplineControlPoint.fixedPart
      = (l.filterMap (fun p => cps[p]?)).map SplineControlPoint.fixedPart := by
  induction l with
  | nil => rfl
  | cons p l ih =>
    have hp := congrArg (fun m => m[p]?) h
    simp only [List.getElem?_map] at hp
    cases h1 : cps'[p]? with
    | none =>
      cases h2 : cps[p]? with
      | none => rw [List.filterMap_cons_none h1, List.filterMap_cons_none h2, ih]
      | some c => simp [h1, h2] at hp
    | some c' =>
      cases h2 : cps[p]? with
      | none => simp [h1, h2] at hp
      | some c =>
        rw [List.filterMap_cons_some h1, List.filterMap_cons_some h2]
        simp only [h1, h2, Option.map_some', Option.some.injEq] at hp
        simp [hp, ih]

theorem chain'_getElem? {β : Type} {R : β → β → Prop} :
    ∀ {l : List β}, List.Chain' R l → ∀ (i : Nat) (a b : β),
      l[i]? = some a → l[i + 1]? = some b → R a b := by
  intro l
  induction l with
  | nil => intro _ i a b h; simp at h
  | cons x l ih =>
    intro hc i a b ha hb
    cases l with
    | nil => simp at hb
    | cons y l =>
      rw [List.chain'_cons] at hc
      cases i with
      | zero =>
        simp only [List.getElem?_cons_zero, Option.some.injEq, Nat.zero_add,
          List.getElem?_cons_succ] at ha hb
        subst ha; subst hb
        exact hc.1
      | succ i =>
        simp only [List.getElem?_cons_succ] at ha hb
        exact ih hc.2 i a b (by simpa using ha) (by simpa using hb)

/-! ### Neighbour lookups -/

theorem vectorAt_ok {β : Type} (v : List β) (i : Int) (h0 : 0 ≤ i) (h1 : i.toNat < v.length) :
    ∃ b, v[i.toNat]? = some b ∧ vectorAt v i = .ok b := by
  refine ⟨v[i.toNat], List.getElem?_eq_getElem h1, ?_⟩
  unfold vectorAt
  rw [if_neg (not_lt.2 h0), List.getElem?_eq_getElem h1]

theorem sizeLE_eq_false {size : Nat} {i : Int} (h : sizeLE size i = false) :
    0 ≤ i ∧ i.toNat < size := by
  unfold sizeLE at h
  simp only [Bool.or_eq_false_iff, decide_eq_false_iff_not, not_lt, not_le] at h
  exact h

theorem sizeLE_natCast (size p : Nat) : sizeLE size ((p : Int) + 1) = decide (size ≤ p + 1) := by
  unfold sizeLE
  have h1 : ¬ ((p : Int) + 1 < 0) := by omega
  have h2 : ((p : Int) + 1).toNat = p + 1 := by omega
  simp [h1, h2]

theorem NextPosition_of_index (s : Spline α) (cp : SplineControlPoint α) (p : Nat)
    (h : cp.ControlPointIndex = (p : Int)) :
    s.NextPosition cp
      = .ok (((s.controlPoints[p + 1]?).map (fun c => c.Position)).getD cp.Position) := by
  unfold NextPosition
  simp only [h, sizeLE_natCast]
  by_cases hl : s.controlPoints.length ≤ p + 1
  · simp [hl, List.getElem?_eq_none hl]
  · have hlt : p + 1 < s.controlPoints.length := by omega
    have e : (((p : Int) + 1)) = ((p + 1 : Nat) : Int) := by omega
    simp only [hl, decide_False, Bool.false_eq_true, if_false]
    rw [e, vectorAt_natCast _ _ _ (List.getElem?_eq_getElem hlt)]
    simp [List.getElem?_eq_getElem hlt]
    rfl

theorem NextNormal_of_index (s : Spline α) (cp : SplineControlPoint α) (p : Nat)
    (h : cp.ControlPointIndex = (p : Int)) :
    s.NextNormal cp
      = .ok (((s.controlPoints[p + 1]?).map (fun c => c.Normal)).getD cp.Normal) := by
  unfold NextNormal
  simp only [h, sizeLE_natCast]
  by_cases hl : s.controlPoints.length ≤ p + 1
  · simp [hl, List.getElem?_eq_none hl]
  · have hlt : p + 1 < s.controlPoints.length := by omega
    have e : (((p : Int) + 1)) = ((p + 1 : Nat) : Int) := by omega
    simp only [hl, decide_False, Bool.false_eq_true, if_false]
    rw [e, vectorAt_natCast _ _ _ (List.getElem?_eq_getElem hlt)]
    simp [List.getElem?_eq_getElem hlt]
    rfl

theorem NextControlPoint_of_index (s : Spline α) (cp : SplineControlPoint α) (p : Nat)
    (h : cp.ControlPointIndex = (p : Int)) :
    s.NextControlPoint cp = .ok s.controlPoints[p + 1]? := by
  unfold NextControlPoint
  simp only [h, sizeLE_natCast]
  by_cases h0 : s.controlPoints.length = 0
  · have : s.controlPoints.length ≤ p + 1 := by omega
    simp [h0, List.getElem?_eq_none this]
  · by_cases hl : s.controlPoints.length ≤ p + 1
    · simp [h0, hl, List.getElem?_eq_none hl]
    · have hlt : p + 1 < s.controlPoints.length := by omega
      have e : (((p : Int) + 1)) = ((p + 1 : Nat) : Int) := by omega
      simp only [h0, hl, decide_False, Bool.false_eq_true, if_false]
      rw [e, vectorAt_natCast _ _ _ (List.getElem?_eq_getElem hlt)]
      simp [List.getElem?_eq_getElem hlt]
      rfl

theorem PreviousPosition_of_index_zero (s : Spline α) (cp : SplineControlPoint α)
    (h : cp.ControlPointIndex = 0) : s.PreviousPosition cp = .ok cp.Position := by
  unfold PreviousPosition
  simp [h]

theorem PreviousNormal_of_index_zero (s : Spline α) (cp : SplineControlPoint α)
    (h : cp.ControlPointIndex = 0) : s.PreviousNormal cp = .ok cp.Normal := by
  unfold PreviousNormal
  simp [h]

theorem PreviousPosition_of_index_succ (s : Spline α) (cp pr : SplineControlPoint α) (q : Nat)
    (h : cp.ControlPointIndex = ((q + 1 : Nat) : Int)) (hq : s.controlPoints[q]? = some pr) :
    s.PreviousPosition cp = .ok pr.Position := by
  unfold PreviousPosition
  have e : ((q + 1 : Nat) : Int) - 1 = (q : Int) := by omega
  have hn : ¬ ((q : Int) < 0) := by omega
  simp only [h, e, hn, if_false]
  rw [vectorAt_natCast _ _ _ hq]
  rfl

theorem PreviousNormal_of_index_succ (s : Spline α) (cp pr : SplineControlPoint α) (q : Nat)
    (h : cp.ControlPointIndex = ((q + 1 : Nat) : Int)) (hq : s.controlPoints[q]? = some pr) :
    s.PreviousNormal cp = .ok pr.Normal := by
  unfold PreviousNormal
  have e : ((q + 1 : Nat) : Int) - 1 = (q : Int) := by omega
  have hn : ¬ ((q : Int) < 0) := by omega
  simp only [h, e, hn, if_false]
  rw [vectorAt_natCast _ _ _ hq]
  rfl

theorem NextPosition_ok (s : Spline α) (cp : SplineControlPoint α) :
    ∃ v, s.NextPosition cp = .ok v := by
  cases hs : sizeLE s.controlPoints.length (cp.ControlPointIndex + 1) with
  | true => exact ⟨cp.Position, by simp [NextPosition, hs]⟩
  | false =>
    obtain ⟨h0, h1⟩ := sizeLE_eq_false hs
    obtain ⟨b, _, hb⟩ := vectorAt_ok s.controlPoints _ h0 h1
    refine ⟨b.Position, ?_⟩
    simp only [NextPosition, hs, hb, Bool.false_eq_true, if_false]
    rfl

theorem NextControlPoint_ok (s : Spline α) (cp : SplineControlPoint α) :
    ∃ o, s.NextControlPoint cp = .ok o := by
  by_cases h0 : s.controlPoints.length = 0
  · exact ⟨none, by simp [NextControlPoint, h0]⟩
  · cases hs : sizeLE s.controlPoints.length (cp.ControlPointIndex + 1) with
    | true => exact ⟨none, by simp [NextControlPoint, h0, hs]⟩
    | false =>
      obtain ⟨h0', h1⟩ := sizeLE_eq_false hs
      obtain ⟨b, _, hb⟩ := vectorAt_ok s.controlPoints _ h0' h1
      refine ⟨some b, ?_⟩
      simp only [NextControlPoint, h0, hs, hb, Bool.false_eq_true, if_false]
      rfl

theorem Next2Position_ok (s : Spline α) (cp : SplineControlPoint α) :
    ∃ v, s.Next2Position cp = .ok v := by
  unfold Next2Position
  obtain ⟨o, ho⟩ := NextControlPoint_ok s cp
  rw [ho]
  cases o with
  | none => exact NextPosition_ok s cp
  | some n => exact NextPosition_ok s n

theorem CatmulRom_zero [LinearOrderedField α] (T0 P0 P1 T1 : FastVector3 α) :
    CatmulRom T0 P0 P1 T1 0 = P0 := by
  cases P0
  simp [CatmulRom]

theorem CatmulRom_one [LinearOrderedField α] (T0 P0 P1 T1 : FastVector3 α) :
    CatmulRom T0 P0 P1 T1 1 = P1 := by
  cases P1
  simp only [CatmulRom, FastVector3.mk.injEq]
  refine ⟨?_, ?_, ?_⟩ <;> ring

theorem Interpolate_eq [LinearOrderedField α] (s : Spline α) (cp : SplineControlPoint α)
    (f : α) {pv nx n2 : FastVector3 α} (h1 : s.PreviousPosition cp = .ok pv)
    (h2 : s.NextPosition cp = .ok nx) (h3 : s.Next2Position cp = .ok n2) :
    s.Interpolate cp f = .ok (CatmulRom pv cp.Position nx n2 f) := by
  unfold Interpolate
  rw [h1, h2, h3]

theorem Interpolate_zero [LinearOrderedField α] (s : Spline α) (cp : SplineControlPoint α)
    {pv : FastVector3 α} (h1 : s.PreviousPosition cp = .ok pv) :
    s.Interpolate cp 0 = .ok cp.Position := by
  obtain ⟨nx, h2⟩ := NextPosition_ok s cp
  obtain ⟨n2, h3⟩ := Next2Position_ok s cp
  rw [Interpolate_eq s cp 0 h1 h2 h3, CatmulRom_zero]

theorem Interpolate_one [LinearOrderedField α] (s : Spline α) (cp : SplineControlPoint α)
    {pv nx : FastVector3 α} (h1 : s.PreviousPosition cp = .ok pv)
    (h2 : s.NextPosition cp = .ok nx) :
    s.Interpolate cp 1 = .ok nx := by
  obtain ⟨n2, h3⟩ := Next2Position_ok s cp
  rw [Interpolate_eq s cp 1 h1 h2 h3, CatmulRom_one]

/-! ### Control points that carry their index -/

theorem Indexed.index_eq {s : Spline α} (h : s.Indexed) {i : Nat} {c : SplineControlPoint α}
    (hc : s.controlPoints[i]? = some c) : c.ControlPointIndex = (i : Int) := by
  have hi : i < s.controlPoints.length := (List.getElem?_eq_some.1 hc).1
  have := congrArg (fun l => l[i]?) h
  beta_reduce at this
  rw [List.getElem?_map, List.getElem?_map, hc, List.getElem?_range hi] at this
  exact Option.some.inj this

theorem indexed_of_authored {s s' : Spline α}
    (h : s'.controlPoints.map SplineControlPoint.authored
      = s.controlPoints.map SplineControlPoint.authored) (hi : s.Indexed) : s'.Indexed := by
  have hl : s'.controlPoints.length = s.controlPoints.length := by
    simpa using congrArg List.length h
  have e : ∀ m : List (SplineControlPoint α),
      m.map (fun c => c.ControlPointIndex)
        = (m.map SplineControlPoint.authored).map (fun a => a.2.2.1) := by
    intro m
    rw [List.map_map]
    rfl
  unfold Indexed at hi ⊢
  rw [e, h, ← e, hl]
  exact hi

theorem RefreshSpline_indexed [Zero α] [Add α] [Sub α] (mag : FastVector3 α → α)
    {s : Spline α} (h : s.Indexed) : (RefreshSpline mag s).Indexed :=
  indexed_of_authored (RefreshSpline_authored mag s) h

theorem segment_position [Zero α] [Add α] [Sub α] (mag : FastVector3 α → α)
    {s : Spline α} (h : s.Indexed) {cp : SplineControlPoint α}
    (hcp : cp ∈ (RefreshSpline mag s).segmentPoints) :
    ∃ p : Nat, (RefreshSpline mag s).controlPoints[p]? = some cp ∧
      cp.ControlPointIndex = (p : Int) := by
  rw [RefreshSpline_segmentPoints] at hcp
  obtain ⟨p, hp⟩ := List.mem_iff_getElem?.1 (List.mem_filter.1 hcp).1
  exact ⟨p, hp, (RefreshSpline_indexed mag h).index_eq hp⟩

theorem PreviousPosition_ok_of_index (s : Spline α) (cp : SplineControlPoint α) (p : Nat)
    (h : cp.ControlPointIndex = (p : Int)) (hp : p ≤ s.controlPoints.length) :
    ∃ v, s.PreviousPosition cp = .ok v := by
  cases p with
  | zero => exact ⟨_, PreviousPosition_of_index_zero s cp (by simpa using h)⟩
  | succ q =>
    have hq : q < s.controlPoints.length := by omega
    exact ⟨_, PreviousPosition_of_index_succ s cp _ q h (List.getElem?_eq_getElem hq)⟩

theorem RefreshSpline_all_valid [Zero α] [Add α] [Sub α] (mag : FastVector3 α → α)
    (s : Spline α) (h : ∀ c ∈ s.controlPoints, c.IsValid = true) :
    (RefreshSpline mag s).segmentPoints = (RefreshSpline mag s).controlPoints := by
  rw [RefreshSpline_segmentPoints, List.filter_eq_self]
  intro c hc
  have hm : c.IsValid ∈ (RefreshSpline mag s).controlPoints.map SplineControlPoint.IsValid :=
    List.mem_map_of_mem _ hc
  rw [RefreshSpline_isValid] at hm
  obtain ⟨c', hc', e⟩ := List.mem_map.1 hm
  rw [← e]
  exact h c' hc'

theorem FastVector3_sub_mk {α : Type} [Sub α] (a b c d e f : α) :
    (⟨a, b, c⟩ : FastVector3 α) - ⟨d, e, f⟩ = ⟨a - d, b - e, c - f⟩ := rfl

theorem exampleGap_refresh :
    RefreshSpline Magnitude (exampleGap ℝ) = exampleGapRefreshed ℝ := by
  simp [RefreshSpline, RefreshDistance, refreshLoop, distanceLoop, setDist, exampleGap,
    exampleGapRefreshed, axisPoint, SplineControlPoint.IsValid, Magnitude, FastVector3_sub_mk]

theorem exampleGap_built :
    exampleGap ℝ
      = Prod.fst (AddControlPoint
          (Prod.fst (AddControlPoint
            (Prod.fst (AddControlPoint Spline.new
              (axisPoint 0 (-1) (-1) 0 true) ⟨0, 0, 0⟩ ⟨0, 1, 0⟩))
            (axisPoint 0 (-1) (-1) 0 false) ⟨5, 0, 0⟩ ⟨0, 1, 0⟩))
          (axisPoint 0 (-1) (-1) 0 true) ⟨1, 0, 0⟩ ⟨0, 1, 0⟩) := by
  simp [exampleGap, AddControlPoint, Spline.new, axisPoint]

theorem exampleGapRefreshed_segmentPoints :
    (exampleGapRefreshed ℝ).segmentPoints = [axisPoint 0 0 0 0 true, axisPoint 1 2 1 1 true] := by
  simp [segmentPoints, exampleGapRefreshed]

theorem exampleGap_lenToSegment :
    (exampleGapRefreshed ℝ).LenToSegment 1 = .ok (some (axisPoint 0 0 0 0 true), 1) := by
  unfold LenToSegment
  rw [exampleGapRefreshed_segmentPoints]
  norm_num [Clamp01, scan, vectorAt, axisPoint]

theorem exampleGap_neighbours :
    (exampleGapRefreshed ℝ).PreviousPosition (axisPoint 0 0 0 0 true) = .ok ⟨0, 0, 0⟩ ∧
      (exampleGapRefreshed ℝ).NextPosition (axisPoint 0 0 0 0 true) = .ok ⟨5, 0, 0⟩ := by
  constructor
  · simp [PreviousPosition, axisPoint]
  · simp [NextPosition, sizeLE, vectorAt, exampleGapRefreshed, Except.map, axisPoint]

theorem exampleGap_interpolate :
    (exampleGapRefreshed ℝ).InterpolateByLen 1 = .ok ⟨5, 0, 0⟩ := by
  unfold InterpolateByLen
  rw [exampleGap_lenToSegment]
  exact Interpolate_one _ _ exampleGap_neighbours.1 exampleGap_neighbours.2

theorem getLast?_isSome_of_ne_nil {β : Type} (l : List β) (h : l ≠ []) :
    ∃ b, l.getLast? = some b := by
  cases hl : l.getLast? with
  | none => exact absurd (List.getLast?_eq_none_iff.1 hl) h
  | some b => exact ⟨b, rfl⟩

theorem RefreshSpline_segmentPoints_ne_nil {α : Type} [Zero α] [Add α] [Sub α]
    (mag : FastVector3 α → α) (s : Spline α) (hne : (RefreshSpline mag s).segments ≠ []) :
    (RefreshSpline mag s).segmentPoints ≠ [] := by
  intro h
  have := segmentPoints_length _ (RefreshSpline_WF mag s)
  rw [h] at this
  exact hne (List.length_eq_zero.1 this.symm)

theorem fresh_position_eq {segs : List (SplineControlPoint ℝ)} (hf : Fresh Magnitude segs) :
    ∀ (d i : Nat) (a b : SplineControlPoint ℝ), segs[i]? = some a → segs[i + d]? = some b →
      a.Dist = b.Dist → a.Position = b.Position := by
  intro d
  induction d with
  | zero =>
    intro i a b ha hb _
    rw [Nat.add_zero, ha] at hb
    cases hb
    rfl
  | succ d ih =>
    intro i a b ha hb hab
    have hlt : i + d < segs.length := by
      have := (List.getElem?_eq_some.1 hb).1
      omega
    have hm : segs[i + d]? = some segs[i + d] := List.getElem?_eq_getElem hlt
    have h1 : a.Dist ≤ segs[i + d].Dist :=
      fresh_mono Magnitude Magnitude_nonneg hf (Nat.le_add_right i d) ha hm
    have hstep : DistStep Magnitude segs[i + d] b :=
      chain'_getElem? hf.2.1 (i + d) _ _ hm (by rw [Nat.add_assoc]; exact hb)
    unfold DistStep at hstep
    have hnn := Magnitude_nonneg (b.Position - segs[i + d].Position)
    have hmd : a.Dist = segs[i + d].Dist := by linarith
    have hz : Magnitude (b.Position - segs[i + d].Position) = 0 := by linarith
    rw [ih i a _ ha hm hmd]
    exact (Magnitude_sub_eq_zero_iff _ _).1 hz

theorem Clamp01_zero {α : Type} [LinearOrderedField α] : Clamp01 (0 : α) = 0 :=
  Clamp01_of_mem (le_refl _) zero_le_one

theorem Clamp01_one {α : Type} [LinearOrderedField α] : Clamp01 (1 : α) = 1 :=
  Clamp01_of_mem zero_le_one (le_refl _)

theorem InterpolateByLen_zero_fresh (s0 : Spline ℝ) (hidx : s0.Indexed)
    (first back : SplineControlPoint ℝ)
    (hfirst : (RefreshSpline Magnitude s0).segmentPoints[0]? = some first)
    (hb : (RefreshSpline Magnitude s0).segmentPoints.getLast? = some back) :
    (RefreshSpline Magnitude s0).InterpolateByLen 0 = .ok first.Position := by
  have hf := RefreshSpline_fresh Magnitude s0
  obtain ⟨k, seg, hk, _, hleast, hz, _⟩ :=
    LenToSegment_fresh Magnitude Magnitude_nonneg _ hf 0 back hb
  have hd : first.Dist = 0 := hf.1 first (by rw [List.head?_eq_getElem?]; exact hfirst)
  have hk0 : k = 0 := by
    by_contra hcon
    have := hleast 0 first (by omega) hfirst
    rw [Clamp01_zero, zero_mul, hd] at this
    exact lt_irrefl _ this
  subst hk0
  rw [hfirst] at hk
  cases hk
  obtain ⟨p, hp, hcpi⟩ := segment_position Magnitude hidx (List.getElem?_mem hfirst)
  obtain ⟨pv, hpv⟩ := PreviousPosition_ok_of_index _ first p hcpi
    (le_of_lt (List.getElem?_eq_some.1 hp).1)
  unfold InterpolateByLen
  rw [hz rfl]
  exact Interpolate_zero _ _ hpv

theorem InterpolateByLen_one_fresh (s0 : Spline ℝ) (hidx : s0.Indexed)
    (back : SplineControlPoint ℝ)
    (hb : (RefreshSpline Magnitude s0).segmentPoints.getLast? = some back)
    (hcons : ∀ (i : Nat) (a b : SplineControlPoint ℝ),
      (RefreshSpline Magnitude s0).segmentPoints[i]? = some a →
      (RefreshSpline Magnitude s0).segmentPoints[i + 1]? = some b →
      b.ControlPointIndex = a.ControlPointIndex + 1) :
    (RefreshSpline Magnitude s0).InterpolateByLen 1 = .ok back.Position := by
  have hf := RefreshSpline_fresh Magnitude s0
  have hbi : (RefreshSpline Magnitude s0).segmentPoints[
      (RefreshSpline Magnitude s0).segmentPoints.length - 1]? = some back := by
    rw [← List.getLast?_eq_getElem?]; exact hb
  obtain ⟨k, seg, hk, hseg, hleast, hz, hp⟩ :=
    LenToSegment_fresh Magnitude Magnitude_nonneg _ hf 1 back hb
  rw [Clamp01_one, one_mul] at hseg hleast hp
  have hklt : k < (RefreshSpline Magnitude s0).segmentPoints.length :=
    (List.getElem?_eq_some.1 hk).1
  have hkle : k ≤ (RefreshSpline Magnitude s0).segmentPoints.length - 1 := by omega
  have hle : seg.Dist ≤ back.Dist := fresh_mono Magnitude Magnitude_nonneg hf hkle hk hbi
  have hdist : seg.Dist = back.Dist := le_antisymm hle hseg
  have hpos : seg.Position = back.Position := by
    refine fresh_position_eq hf ((RefreshSpline Magnitude s0).segmentPoints.length - 1 - k) k
      seg back hk ?_ hdist
    have e : k + ((RefreshSpline Magnitude s0).segmentPoints.length - 1 - k)
        = (RefreshSpline Magnitude s0).segmentPoints.length - 1 := by omega
    rw [e]
    exact hbi
  obtain ⟨q, hq, hqi⟩ := segment_position Magnitude hidx (List.getElem?_mem hk)
  by_cases hk0 : k = 0
  · obtain ⟨pv, hpv⟩ := PreviousPosition_ok_of_index _ seg q hqi
      (le_of_lt (List.getElem?_eq_some.1 hq).1)
    unfold InterpolateByLen
    rw [hz hk0, ← hpos]
    exact Interpolate_zero _ _ hpv
  · obtain ⟨prev, hprev, hr⟩ := hp hk0
    have hlt : prev.Dist < back.Dist := hleast (k - 1) prev (by omega) hprev
    have hone : (back.Dist - prev.Dist) / (seg.Dist - prev.Dist) = 1 := by
      rw [hdist]
      exact div_self (by linarith)
    rw [hone] at hr
    obtain ⟨p, hpp, hpi⟩ := segment_position Magnitude hidx (List.getElem?_mem hprev)
    have hk' : (RefreshSpline Magnitude s0).segmentPoints[k - 1 + 1]? = some seg := by
      have e : k - 1 + 1 = k := by omega
      rw [e]
      exact hk
    have hc := hcons (k - 1) prev seg hprev hk'
    have hqp : q = p + 1 := by
      rw [hqi, hpi] at hc
      omega
    subst hqp
    obtain ⟨pv, hpv⟩ := PreviousPosition_ok_of_index _ prev p hpi
      (le_of_lt (List.getElem?_eq_some.1 hpp).1)
    have hnx : (RefreshSpline Magnitude s0).NextPosition prev = .ok seg.Position := by
      rw [NextPosition_of_index _ prev p hpi, hq]
      rfl
    unfold InterpolateByLen
    rw [hr, ← hpos]
    exact Interpolate_one _ _ hpv hnx

theorem CatmulRom_half (P0 P1 : FastVector3 ℝ) :
    CatmulRom P0 P0 P1 P1 0.5
      = ⟨(P0.x + P1.x) / 2, (P0.y + P1.y) / 2, (P0.z + P1.z) / 2⟩ := by
  simp only [CatmulRom, FastVector3.mk.injEq]
  refine ⟨?_, ?_, ?_⟩ <;> ring

theorem RefreshSpline_two (s0 : Spline ℝ) (P0 P1 : SplineControlPoint ℝ)
    (hcp : s0.controlPoints = [P0, P1]) (hv0 : P0.IsValid = true) (hv1 : P1.IsValid = true) :
    RefreshSpline Magnitude s0
      = Spline.mk
          [P0.written 0 0, P1.written 1 (0 + Magnitude (P1.Position - P0.Position))]
          [0, 1] := by
  simp [RefreshSpline, hcp, refreshLoop, hv0, hv1, RefreshDistance, distanceLoop, setDist,
    SplineControlPoint.written]

theorem new_WF {α : Type} : (Spline.new : Spline α).WF := by
  simp [WF, Spline.new]

theorem Clear_WF {α : Type} (s : Spline α) : s.Clear.WF := by
  simp [WF, Clear]

theorem AddControlPoint_WF {α : Type} (s : Spline α) (fresh : SplineControlPoint α)
    (pos up : FastVector3 α) (h : s.WF) : (s.AddControlPoint fresh pos up).1.WF := by
  refine ⟨h.1, ?_⟩
  intro p hp
  have := h.2 p hp
  simp only [AddControlPoint, List.length_append, List.length_singleton]
  omega

theorem exampleGap_indexed : (exampleGap ℝ).Indexed := by
  simp [Indexed, exampleGap, axisPoint, List.range, List.range.loop]

theorem exampleLine_indexed : (exampleLine ℝ).Indexed := by
  simp [Indexed, exampleLine, axisPoint, List.range, List.range.loop]

theorem exampleTwo_indexed : (exampleTwo ℝ).Indexed := by
  simp [Indexed, exampleTwo, axisPoint, List.range, List.range.loop]

theorem exampleGap_segments_ne_nil : (RefreshSpline Magnitude (exampleGap ℝ)).segments ≠ [] := by
  rw [exampleGap_refresh]
  simp [exampleGapRefreshed]

theorem exampleLine_segments_ne_nil :
    (RefreshSpline Magnitude (exampleLine ℝ)).segments ≠ [] := by
  rw [RefreshSpline_eq, RefreshDistance_segments]
  simp [refreshLoop, exampleLine, axisPoint, SplineControlPoint.IsValid]

theorem exampleLine_all_valid : ∀ c ∈ (exampleLine ℝ).controlPoints, c.IsValid = true := by
  simp [exampleLine, axisPoint, SplineControlPoint.IsValid]

theorem exampleGapRefreshed_WF : (exampleGapRefreshed ℝ).WF := by
  simp [WF, exampleGapRefreshed]

theorem new_indexed {α : Type} : (Spline.new : Spline α).Indexed := by
  simp [Indexed, Spline.new]

theorem Clear_indexed {α : Type} (s : Spline α) : s.Clear.Indexed := by
  simp [Indexed, Clear]

theorem AddControlPoint_indexed {α : Type} (s : Spline α) (fresh : SplineControlPoint α)
    (pos up : FastVector3 α) (h : s.Indexed) : (s.AddControlPoint fresh pos up).1.Indexed := by
  unfold Indexed at h ⊢
  simp only [AddControlPoint, List.map_append, List.length_append, List.length_singleton,
    List.range_succ, h, List.map_cons, List.map_nil]
  congr 2
  omega

theorem PreviousControlPoint_of_index_zero {α : Type} (s : Spline α)
    (cp : SplineControlPoint α) (h : cp.ControlPointIndex = 0) :
    s.PreviousControlPoint cp = .ok none := by
  unfold PreviousControlPoint
  simp [h]

theorem PreviousControlPoint_of_index_succ {α : Type} (s : Spline α)
    (cp pr : SplineControlPoint α) (q : Nat)
    (h : cp.ControlPointIndex = ((q + 1 : Nat) : Int)) (hq : s.controlPoints[q]? = some pr) :
    s.PreviousControlPoint cp = .ok (some pr) := by
  have hlen : s.controlPoints.length ≠ 0 := by
    have := (List.getElem?_eq_some.1 hq).1
    omega
  have e : ((q + 1 : Nat) : Int) - 1 = (q : Int) := by omega
  have hn : ¬ ((q : Int) < 0) := by omega
  unfold PreviousControlPoint
  simp only [h, e, hn, hlen, if_false]
  rw [vectorAt_natCast _ _ _ hq]
  rfl

theorem sizeLE_eq_true_iff (size : Nat) (i : Int) :
    sizeLE size i = true ↔ i < 0 ∨ (size : Int) ≤ i := by
  unfold sizeLE
  simp only [Bool.or_eq_true, decide_eq_true_eq]
  constructor
  · rintro (h | h)
    · exact Or.inl h
    · by_cases h0 : i < 0
      · exact Or.inl h0
      · right; omega
  · rintro (h | h)
    · exact Or.inl h
    · right; omega

theorem vectorAt_outOfRange {β : Type} (v : List β) (i : Int) (h : (v.length : Int) ≤ i) :
    vectorAt v i = .error .outOfRange := by
  unfold vectorAt
  by_cases h0 : i < 0
  · simp [h0]
  · have hl : v.length ≤ i.toNat := by omega
    simp [h0, List.getElem?_eq_none hl]

theorem LenToSegment_fresh_scan {α : Type} [LinearOrderedField α] (mag : FastVector3 α → α)
    (hmag : ∀ v, 0 ≤ mag v) (s : Spline α)
    (hf : Fresh mag s.segmentPoints) (t : α) (back : SplineControlPoint α)
    (hb : s.segmentPoints.getLast? = some back) :
    ∃ k seg, s.segmentPoints[k]? = some seg ∧ Clamp01 t * back.Dist ≤ seg.Dist ∧
      (∀ j c, j < k → s.segmentPoints[j]? = some c → c.Dist < Clamp01 t * back.Dist) ∧
      scan (Clamp01 t * back.Dist) s.segmentPoints 0 = (some seg, k) ∧
      seg.SegmentIndex = (k : Int) ∧
      (k = 0 → s.LenToSegment t = .ok (some seg, 0)) ∧
      (k ≠ 0 → ∃ prev, s.segmentPoints[k - 1]? = some prev ∧
        vectorAt s.segmentPoints (seg.SegmentIndex - 1) = .ok prev ∧
        s.LenToSegment t
          = .ok (some prev, (Clamp01 t * back.Dist - prev.Dist) / (seg.Dist - prev.Dist))) := by
  have hbi : s.segmentPoints[s.segmentPoints.length - 1]? = some back := by
    rw [← List.getLast?_eq_getElem?]; exact hb
  have hback0 : 0 ≤ back.Dist := fresh_nonneg mag hmag hf hbi
  have hlen : Clamp01 t * back.Dist ≤ back.Dist := by
    have := mul_le_mul_of_nonneg_right (Clamp01_le_one t) hback0
    simpa using this
  have hex : ∃ c ∈ s.segmentPoints, Clamp01 t * back.Dist ≤ c.Dist :=
    ⟨back, List.getElem?_mem hbi, hlen⟩
  obtain ⟨k, seg, hk, hseg, hleast, hscan⟩ := scan_found (Clamp01 t * back.Dist) _ 0 hex
  rw [Nat.zero_add] at hscan
  refine ⟨k, seg, hk, hseg, hleast, hscan, hf.2.2 k seg hk, ?_, ?_⟩
  · intro hk0
    subst hk0
    unfold LenToSegment
    simp only [hb, hscan]
    simp
  · intro hk0
    have hklt : k < s.segmentPoints.length := (List.getElem?_eq_some.1 hk).1
    have hk1 : k - 1 < s.segmentPoints.length := by omega
    have hidx : seg.SegmentIndex - 1 = ((k - 1 : Nat) : Int) := by
      rw [hf.2.2 k seg hk]
      omega
    have hat : vectorAt s.segmentPoints (seg.SegmentIndex - 1)
        = .ok s.segmentPoints[k - 1] := by
      rw [hidx]
      exact vectorAt_natCast _ _ _ (List.getElem?_eq_getElem hk1)
    refine ⟨s.segmentPoints[k - 1], List.getElem?_eq_getElem hk1, hat, ?_⟩
    unfold LenToSegment
    simp only [hb, hscan, if_neg hk0, hat]

theorem exampleLine_refresh :
    RefreshSpline Magnitude (exampleLine ℝ) = exampleLineRefreshed ℝ := by
  norm_num [RefreshSpline, RefreshDistance, refreshLoop, distanceLoop, setDist, exampleLine,
    exampleLineRefreshed, axisPoint, SplineControlPoint.IsValid, Magnitude, FastVector3_sub_mk]

theorem exampleLine_built :
    exampleLine ℝ
      = Prod.fst (AddControlPoint
          (Prod.fst (AddControlPoint
            (Prod.fst (AddControlPoint
              (Prod.fst (AddControlPoint Spline.new
                (axisPoint 0 (-1) (-1) 0 true) ⟨0, 0, 0⟩ ⟨0, 1, 0⟩))
              (axisPoint 0 (-1) (-1) 0 true) ⟨1, 0, 0⟩ ⟨0, 1, 0⟩))
            (axisPoint 0 (-1) (-1) 0 true) ⟨2, 0, 0⟩ ⟨0, 1, 0⟩))
          (axisPoint 0 (-1) (-1) 0 true) ⟨3, 0, 0⟩ ⟨0, 1, 0⟩) := by
  simp [exampleLine, AddControlPoint, Spline.new, axisPoint]

theorem exampleLineRefreshed_segmentPoints :
    (exampleLineRefreshed ℝ).segmentPoints
      = [axisPoint 0 0 0 0 true, axisPoint 1 1 1 1 true, axisPoint 2 2 2 2 true,
         axisPoint 3 3 3 3 true] := by
  simp [segmentPoints, exampleLineRefreshed]

theorem exampleLine_clamp : Clamp01 (2 / 3 : ℝ) * 3 = 2 := by
  rw [Clamp01_of_mem (by norm_num) (by norm_num)]
  norm_num

theorem exampleLine_scan :
    scan (2 : ℝ) [axisPoint 0 0 0 0 true, axisPoint 1 1 1 1 true, axisPoint 2 2 2 2 true,
        axisPoint 3 3 3 3 true] 0
      = (some (axisPoint 2 2 2 2 true), 2) := by
  norm_num [scan, axisPoint]

theorem exampleLine_lenToSegment :
    (exampleLineRefreshed ℝ).LenToSegment (2 / 3) = .ok (some (axisPoint 1 1 1 1 true), 1) := by
  unfold LenToSegment
  rw [exampleLineRefreshed_segmentPoints]
  have hb : ([axisPoint 0 0 0 0 true, axisPoint 1 1 1 1 true, axisPoint 2 2 2 2 true,
      axisPoint 3 3 3 3 true] : List (SplineControlPoint ℝ)).getLast?
      = some (axisPoint 3 3 3 3 true) := rfl
  have hd : (axisPoint (3 : ℝ) 3 3 3 true).Dist = 3 := rfl
  simp only [hb, hd, exampleLine_clamp, exampleLine_scan]
  norm_num [vectorAt, axisPoint]

theorem exampleLine_neighbours :
    (exampleLineRefreshed ℝ).PreviousPosition (axisPoint 1 1 1 1 true) = .ok ⟨0, 0, 0⟩ ∧
      (exampleLineRefreshed ℝ).NextPosition (axisPoint 1 1 1 1 true) = .ok ⟨2, 0, 0⟩ := by
  constructor
  · simp [PreviousPosition, vectorAt, exampleLineRefreshed, Except.map, axisPoint]
  · simp [NextPosition, sizeLE, vectorAt, exampleLineRefreshed, Except.map, axisPoint]

theorem exampleLine_interpolate :
    (exampleLineRefreshed ℝ).InterpolateByLen (2 / 3) = .ok ⟨2, 0, 0⟩ := by
  unfold InterpolateByLen
  rw [exampleLine_lenToSegment]
  exact Interpolate_one _ _ exampleLine_neighbours.1 exampleLine_neighbours.2

/-! ### Queries after `AddControlPoint` without `RefreshSpline` -/

theorem Reachable_WF {α : Type} [Zero α] [Add α] [Sub α] (mag : FastVector3 α → α)
    (s : Spline α) (h : Reachable mag s) : s.WF := by
  induction h with
  | constructed => exact new_WF
  | addControlPoint s fresh pos up _ ih => exact AddControlPoint_WF s fresh pos up ih
  | refreshSpline s _ _ => exact RefreshSpline_WF mag s
  | clear s _ _ => exact Clear_WF s

theorem Reachable_indexed {α : Type} [Zero α] [Add α] [Sub α] (mag : FastVector3 α → α)
    (s : Spline α) (h : Reachable mag s) : s.Indexed := by
  induction h with
  | constructed => exact new_indexed
  | addControlPoint s fresh pos up _ ih => exact AddControlPoint_indexed s fresh pos up ih
  | refreshSpline s _ ih => exact RefreshSpline_indexed mag ih
  | clear s _ _ => exact Clear_indexed s

theorem scan_none {α : Type} [LinearOrderedField α] (len : α)
    (l : List (SplineControlPoint α)) :
    ∀ index, (∀ c ∈ l, ¬ (c.Dist ≥ len)) → scan len l index = (none, index + l.length) := by
  induction l with
  | nil => intro index _; rfl
  | cons test rest ih =>
    intro index h
    have ht : ¬ (test.Dist ≥ len) := h test (List.mem_cons_self _ _)
    simp only [scan, ht, if_false, List.length_cons]
    rw [ih (index + 1) (fun c hc => h c (List.mem_cons_of_mem _ hc))]
    congr 1
    omega

/-- The failing branch of `LenToSegment`: when there are segments but none has
`Dist >= len`, the loop ends with `seg` null and `index` not zero, and
`seg->SegmentIndex` dereferences the null pointer. -/
theorem LenToSegment_no_match {α : Type} [LinearOrderedField α] (s : Spline α) (t : α)
    (back : SplineControlPoint α) (hb : s.segmentPoints.getLast? = some back)
    (hno : ∀ c ∈ s.segmentPoints, ¬ (c.Dist ≥ Clamp01 t * back.Dist)) :
    s.LenToSegment t = .error .undefinedBehaviour := by
  have hne : s.segmentPoints.length ≠ 0 := by
    intro h
    rw [List.length_eq_zero.1 h] at hb
    simp at hb
  unfold LenToSegment
  simp only [hb, scan_none _ _ 0 hno, Nat.zero_add, if_neg hne]

/-- In exact arithmetic, after `RefreshSpline` with at least one segment the scan of
`LenToSegment` finds a segment with `Dist >= len`, the call returns a non-null segment
without fault, and for a match at `k > 0` the index `seg.SegmentIndex - 1` is `k - 1`,
inside the segments, with a strictly positive divisor.  (Floating point does not keep
this: a chord that overflows makes a distance infinite and `len` can be NaN.) -/
theorem LenToSegment_no_failure_exact (s0 : Spline ℝ) (t : ℝ)
    (hne : (RefreshSpline Magnitude s0).segments ≠ []) :
    ∃ back, (RefreshSpline Magnitude s0).segmentPoints.getLast? = some back ∧
      ∃ (k : Nat) (seg : SplineControlPoint ℝ),
        scan (Clamp01 t * back.Dist) (RefreshSpline Magnitude s0).segmentPoints 0
          = (some seg, k) ∧
        (RefreshSpline Magnitude s0).segmentPoints[k]? = some seg ∧
        Clamp01 t * back.Dist ≤ seg.Dist ∧
        (∃ (c : SplineControlPoint ℝ) (localF : ℝ),
          (RefreshSpline Magnitude s0).LenToSegment t = .ok (some c, localF)) ∧
        (k ≠ 0 →
          seg.SegmentIndex - 1 = ((k - 1 : Nat) : Int) ∧
          k - 1 < (RefreshSpline Magnitude s0).segmentPoints.length ∧
          ∃ prev, (RefreshSpline Magnitude s0).segmentPoints[k - 1]? = some prev ∧
            vectorAt (RefreshSpline Magnitude s0).segmentPoints (seg.SegmentIndex - 1)
              = .ok prev ∧
            0 < seg.Dist - prev.Dist) := by
  obtain ⟨back, hb⟩ :=
    getLast?_isSome_of_ne_nil _ (RefreshSpline_segmentPoints_ne_nil Magnitude s0 hne)
  obtain ⟨k, seg, hk, hseg, hleast, hscan, hsi, hz, hp⟩ :=
    LenToSegment_fresh_scan Magnitude Magnitude_nonneg _ (RefreshSpline_fresh Magnitude s0)
      t back hb
  refine ⟨back, hb, k, seg, hscan, hk, hseg, ?_, ?_⟩
  · by_cases hk0 : k = 0
    · exact ⟨seg, 0, hz hk0⟩
    · obtain ⟨prev, _, _, hr⟩ := hp hk0
      exact ⟨prev, _, hr⟩
  · intro hk0
    obtain ⟨prev, hprev, hat, _⟩ := hp hk0
    have hlt : prev.Dist < Clamp01 t * back.Dist := hleast (k - 1) prev (by omega) hprev
    refine ⟨by rw [hsi]; omega, (List.getElem?_eq_some.1 hprev).1, prev, hprev, hat, ?_⟩
    linarith

/-! ## The claims -/

/-- C1: from every state, `RefreshSpline` leaves as segments exactly the control points
whose `IsValid()` holds, in the order of `controlPoints`; the i-th segment has
`SegmentIndex = i`; so there are at most as many segments as control points, every
segment is valid, and no control point is added, removed or re-authored. -/
theorem C1_RefreshSpline_segments {α : Type} [LinearOrderedField α]
    (mag : FastVector3 α → α) (s : Spline α) :
    (RefreshSpline mag s).segmentPoints
        = (RefreshSpline mag s).controlPoints.filter SplineControlPoint.IsValid ∧
      (RefreshSpline mag s).segmentPoints.length = (RefreshSpline mag s).segments.length ∧
      (∀ (i : Nat) (c : SplineControlPoint α),
        (RefreshSpline mag s).segmentPoints[i]? = some c → c.SegmentIndex = (i : Int)) ∧
      (RefreshSpline mag s).segments.length ≤ (RefreshSpline mag s).controlPoints.length ∧
      (∀ c ∈ (RefreshSpline mag s).segmentPoints, c.IsValid = true) ∧
      (RefreshSpline mag s).controlPoints.map SplineControlPoint.authored
        = s.controlPoints.map SplineControlPoint.authored := by
  have h1 := RefreshSpline_segmentPoints mag s
  have h2 := segmentPoints_length _ (RefreshSpline_WF mag s)
  refine ⟨h1, h2, RefreshSpline_segmentIndex mag s, ?_, ?_, RefreshSpline_authored mag s⟩
  · rw [← h2, h1]
    exact List.length_filter_le _ _
  · intro c hc
    rw [h1] at hc
    exact (List.mem_filter.1 hc).2

/-- C2: on a state whose segment pointers are distinct live control points,
`RefreshDistance` changes nothing when `segments` is empty; otherwise it leaves
`segments` and every field but `Dist` as they are, sets the `Dist` of the first
segment to 0 and the `Dist` of every later segment to the `Dist` of the segment
before it plus the Euclidean length of the difference of the two positions. -/
theorem C2_RefreshDistance (s : Spline ℝ) (hwf : s.WF) :
    (s.segments = [] → RefreshDistance Magnitude s = s) ∧
      (RefreshDistance Magnitude s).segments = s.segments ∧
      (RefreshDistance Magnitude s).controlPoints.map SplineControlPoint.fixedPart
        = s.controlPoints.map SplineControlPoint.fixedPart ∧
      (RefreshDistance Magnitude s).segmentPoints.map SplineControlPoint.fixedPart
        = s.segmentPoints.map SplineControlPoint.fixedPart ∧
      (RefreshDistance Magnitude s).segmentPoints.length = s.segments.length ∧
      (∀ c, (RefreshDistance Magnitude s).segmentPoints[0]? = some c → c.Dist = 0) ∧
      (∀ (i : Nat) (a b : SplineControlPoint ℝ),
        (RefreshDistance Magnitude s).segmentPoints[i]? = some a →
        (RefreshDistance Magnitude s).segmentPoints[i + 1]? = some b →
        b.Dist = a.Dist + Magnitude (b.Position - a.Position)) := by
  refine ⟨?_, RefreshDistance_segments _ s, RefreshDistance_fixedPart _ s, ?_, ?_, ?_, ?_⟩
  · intro h
    simp [RefreshDistance, h]
  · unfold segmentPoints
    rw [RefreshDistance_segments]
    exact segmentPoints_fixedPart _ _ _ (RefreshDistance_fixedPart _ s)
  · rw [segmentPoints_length _ (RefreshDistance_WF _ s hwf), RefreshDistance_segments]
  · intro c hc
    have hne : s.segments ≠ [] := by
      intro h
      simp [segmentPoints, RefreshDistance_segments, h] at hc
    obtain ⟨c', h1, h2⟩ := RefreshDistance_head Magnitude s hwf hne
    rw [List.head?_eq_getElem?, hc] at h1
    cases h1
    exact h2
  · intro i a b ha hb
    exact chain'_getElem? (RefreshDistance_chain Magnitude s hwf) i a b ha hb

/-- C2 (witness): the hypothesis of C2 holds of the state with control points at
`(0,0,0)`, `(5,0,0)`, `(1,0,0)` and the first and last of them as segments. -/
theorem C2_witness :
    (exampleGapRefreshed ℝ).WF ∧
      (RefreshDistance Magnitude (exampleGapRefreshed ℝ)).segments
        = (exampleGapRefreshed ℝ).segments ∧
      (RefreshDistance Magnitude (exampleGapRefreshed ℝ)).segmentPoints.length
        = (exampleGapRefreshed ℝ).segments.length ∧
      (∀ c, (RefreshDistance Magnitude (exampleGapRefreshed ℝ)).segmentPoints[0]? = some c →
        c.Dist = 0) ∧
      (∀ (i : Nat) (a b : SplineControlPoint ℝ),
        (RefreshDistance Magnitude (exampleGapRefreshed ℝ)).segmentPoints[i]? = some a →
        (RefreshDistance Magnitude (exampleGapRefreshed ℝ)).segmentPoints[i + 1]? = some b →
        b.Dist = a.Dist + Magnitude (b.Position - a.Position)) :=
  ⟨exampleGapRefreshed_WF,
    (C2_RefreshDistance (exampleGapRefreshed ℝ) exampleGapRefreshed_WF).2.1,
    (C2_RefreshDistance (exampleGapRefreshed ℝ) exampleGapRefreshed_WF).2.2.2.2.1,
    (C2_RefreshDistance (exampleGapRefreshed ℝ) exampleGapRefreshed_WF).2.2.2.2.2.1,
    (C2_RefreshDistance (exampleGapRefreshed ℝ) exampleGapRefreshed_WF).2.2.2.2.2.2⟩

/-- C4 (the code at the failing input): on a spline without segments, newly
constructed or cleared, `LenToSegment` evaluates `segments.back()->Dist` first, which
is undefined behaviour on an empty vector, so neither it nor `InterpolateByLen` nor
`InterpolateNormalByLen` returns the documented default. -/
theorem C4_empty_spline_queries (s : Spline ℝ) (t : ℝ) :
    (Spline.new : Spline ℝ).LenToSegment t = .error .undefinedBehaviour ∧
      (Spline.new : Spline ℝ).InterpolateByLen t = .error .undefinedBehaviour ∧
      (Spline.new : Spline ℝ).InterpolateNormalByLen t = .error .undefinedBehaviour ∧
      s.Clear.LenToSegment t = .error .undefinedBehaviour ∧
      s.Clear.InterpolateByLen t = .error .undefinedBehaviour ∧
      s.Clear.InterpolateNormalByLen t = .error .undefinedBehaviour := by
  refine ⟨rfl, rfl, rfl, rfl, rfl, rfl⟩

/-- C5: after `RefreshSpline` with at least one segment, the first segment has
`Dist = 0`, and of two consecutive segments the later has a `Dist` at least that of
the earlier, strictly greater exactly when their positions differ. -/
theorem C5_distances_monotone (s0 : Spline ℝ)
    (hne : (RefreshSpline Magnitude s0).segments ≠ []) :
    (∃ c, (RefreshSpline Magnitude s0).segmentPoints[0]? = some c ∧ c.Dist = 0) ∧
      ∀ (i : Nat), i + 1 < (RefreshSpline Magnitude s0).segments.length →
        ∃ a b, (RefreshSpline Magnitude s0).segmentPoints[i]? = some a ∧
          (RefreshSpline Magnitude s0).segmentPoints[i + 1]? = some b ∧
          a.Dist ≤ b.Dist ∧ (a.Dist < b.Dist ↔ a.Position ≠ b.Position) := by
  have hlen := segmentPoints_length _ (RefreshSpline_WF Magnitude s0)
  constructor
  · obtain ⟨c, h1, h2⟩ := RefreshSpline_head Magnitude s0 hne
    rw [List.head?_eq_getElem?] at h1
    exact ⟨c, h1, h2⟩
  · intro i hi
    rw [← hlen] at hi
    have hi0 : i < (RefreshSpline Magnitude s0).segmentPoints.length := by omega
    refine ⟨_, _, List.getElem?_eq_getElem hi0, List.getElem?_eq_getElem hi, ?_⟩
    have hstep : DistStep Magnitude (RefreshSpline Magnitude s0).segmentPoints[i]
        (RefreshSpline Magnitude s0).segmentPoints[i + 1] :=
      chain'_getElem? (RefreshSpline_chain Magnitude s0) i _ _
        (List.getElem?_eq_getElem hi0) (List.getElem?_eq_getElem hi)
    unfold DistStep at hstep
    have hnn := Magnitude_nonneg ((RefreshSpline Magnitude s0).segmentPoints[i + 1].Position
      - (RefreshSpline Magnitude s0).segmentPoints[i].Position)
    have hz := Magnitude_sub_eq_zero_iff (RefreshSpline Magnitude s0).segmentPoints[i].Position
      (RefreshSpline Magnitude s0).segmentPoints[i + 1].Position
    constructor
    · linarith
    · constructor
      · intro hlt heq
        have := hz.2 heq
        linarith
      · intro hneq
        have : Magnitude ((RefreshSpline Magnitude s0).segmentPoints[i + 1].Position
            - (RefreshSpline Magnitude s0).segmentPoints[i].Position) ≠ 0 :=
          fun h => hneq (hz.1 h)
        have := lt_of_le_of_ne hnn (Ne.symm this)
        linarith

/-- C5 (witness): the hypothesis of C5 holds of the control points at `(0,0,0)`,
`(5,0,0)` (invalid), `(1,0,0)`. -/
theorem C5_witness :
    (RefreshSpline Magnitude (exampleGap ℝ)).segments ≠ [] ∧
      (∃ c, (RefreshSpline Magnitude (exampleGap ℝ)).segmentPoints[0]? = some c ∧ c.Dist = 0) ∧
      ∀ (i : Nat), i + 1 < (RefreshSpline Magnitude (exampleGap ℝ)).segments.length →
        ∃ a b, (RefreshSpline Magnitude (exampleGap ℝ)).segmentPoints[i]? = some a ∧
          (RefreshSpline Magnitude (exampleGap ℝ)).segmentPoints[i + 1]? = some b ∧
          a.Dist ≤ b.Dist ∧ (a.Dist < b.Dist ↔ a.Position ≠ b.Position) :=
  ⟨exampleGap_segments_ne_nil, C5_distances_monotone (exampleGap ℝ) exampleGap_segments_ne_nil⟩

/-- C6 (amended): after `RefreshSpline` of a spline whose control points carry their
index, with at least one segment, `InterpolateByLen 0` is the position of the first
segment whatever the validity of the control points, and `InterpolateByLen 1` is the
position of the last segment when the segments are consecutive control points (no
invalid control point lies between two segments), in particular when every control
point is valid. -/
theorem C6_InterpolateByLen_endpoints (s0 : Spline ℝ) (hidx : s0.Indexed)
    (hne : (RefreshSpline Magnitude s0).segments ≠ []) :
    ∃ first back : SplineControlPoint ℝ,
      (RefreshSpline Magnitude s0).segmentPoints[0]? = some first ∧
      (RefreshSpline Magnitude s0).segmentPoints.getLast? = some back ∧
      (RefreshSpline Magnitude s0).InterpolateByLen 0 = .ok first.Position ∧
      ((∀ (i : Nat) (a b : SplineControlPoint ℝ),
          (RefreshSpline Magnitude s0).segmentPoints[i]? = some a →
          (RefreshSpline Magnitude s0).segmentPoints[i + 1]? = some b →
          b.ControlPointIndex = a.ControlPointIndex + 1) →
        (RefreshSpline Magnitude s0).InterpolateByLen 1 = .ok back.Position) ∧
      ((∀ c ∈ s0.controlPoints, c.IsValid = true) →
        (RefreshSpline Magnitude s0).InterpolateByLen 1 = .ok back.Position) := by
  have hnil := RefreshSpline_segmentPoints_ne_nil Magnitude s0 hne
  obtain ⟨back, hb⟩ := getLast?_isSome_of_ne_nil _ hnil
  have hpos : 0 < (RefreshSpline Magnitude s0).segmentPoints.length :=
    List.length_pos.2 hnil
  refine ⟨_, back, List.getElem?_eq_getElem hpos, hb,
    InterpolateByLen_zero_fresh s0 hidx _ back (List.getElem?_eq_getElem hpos) hb,
    InterpolateByLen_one_fresh s0 hidx back hb, ?_⟩
  intro hall
  apply InterpolateByLen_one_fresh s0 hidx back hb
  intro i a b ha hb'
  rw [RefreshSpline_all_valid Magnitude s0 hall] at ha hb'
  rw [(RefreshSpline_indexed Magnitude hidx).index_eq ha,
    (RefreshSpline_indexed Magnitude hidx).index_eq hb']
  omega

/-- C6 (witness): the hypotheses of the amended C6 hold of the four valid control
points at `(0,0,0)`, `(1,0,0)`, `(2,0,0)`, `(3,0,0)`, where both endpoints are met. -/
theorem C6_witness :
    (exampleLine ℝ).Indexed ∧ (RefreshSpline Magnitude (exampleLine ℝ)).segments ≠ [] ∧
      (∀ c ∈ (exampleLine ℝ).controlPoints, c.IsValid = true) ∧
      ∃ first back : SplineControlPoint ℝ,
        (RefreshSpline Magnitude (exampleLine ℝ)).segmentPoints[0]? = some first ∧
        (RefreshSpline Magnitude (exampleLine ℝ)).segmentPoints.getLast? = some back ∧
        (RefreshSpline Magnitude (exampleLine ℝ)).InterpolateByLen 0 = .ok first.Position ∧
        (RefreshSpline Magnitude (exampleLine ℝ)).InterpolateByLen 1 = .ok back.Position := by
  obtain ⟨first, back, h1, h2, h3, _, h5⟩ :=
    C6_InterpolateByLen_endpoints (exampleLine ℝ) exampleLine_indexed exampleLine_segments_ne_nil
  exact ⟨exampleLine_indexed, exampleLine_segments_ne_nil, exampleLine_all_valid,
    first, back, h1, h2, h3, h5 exampleLine_all_valid⟩

/-- C6 (counterexample): for control points at `(0,0,0)`, `(5,0,0)` (invalid) and
`(1,0,0)`, the last segment after `RefreshSpline` is at `(1,0,0)` but
`InterpolateByLen 1` is `(5,0,0)`, the position of the invalid control point. -/
theorem C6_counterexample :
    (exampleGap ℝ).Indexed ∧
      (RefreshSpline Magnitude (exampleGap ℝ)).segmentPoints.getLast?
        = some (axisPoint 1 2 1 1 true) ∧
      (RefreshSpline Magnitude (exampleGap ℝ)).InterpolateByLen 1 = .ok ⟨5, 0, 0⟩ ∧
      (⟨5, 0, 0⟩ : FastVector3 ℝ) ≠ (axisPoint (1 : ℝ) 2 1 1 true).Position := by
  rw [exampleGap_refresh, exampleGapRefreshed_segmentPoints]
  refine ⟨by simp [Indexed, exampleGap, axisPoint, List.range, List.range.loop], rfl,
    exampleGap_interpolate, ?_⟩
  simp [axisPoint]

/-- C7 (amended): after `RefreshSpline` of a spline whose control points carry their
index, for every segment `cp`, at position `p` of `controlPoints`, the neighbour
lookups follow the sequence `controlPoints` by `ControlPointIndex`: `NextPosition` and
`NextNormal` give the fields of `controlPoints[p + 1]` when `p + 1 < size` and those
of `cp` otherwise; `PreviousPosition` and `PreviousNormal` give the fields of
`controlPoints[p - 1]` when `p >= 1` and those of `cp` otherwise.  When every control
point is valid the segments are the control points and `SegmentIndex` equals
`ControlPointIndex`, so that this is the rule of the segment sequence. -/
theorem C7_neighbours_follow_controlPoints (s0 : Spline ℝ) (hidx : s0.Indexed)
    (cp : SplineControlPoint ℝ) (hcp : cp ∈ (RefreshSpline Magnitude s0).segmentPoints) :
    ∃ p : Nat, (RefreshSpline Magnitude s0).controlPoints[p]? = some cp ∧
      cp.ControlPointIndex = (p : Int) ∧
      (∀ n, (RefreshSpline Magnitude s0).controlPoints[p + 1]? = some n →
        (RefreshSpline Magnitude s0).NextPosition cp = .ok n.Position ∧
        (RefreshSpline Magnitude s0).NextNormal cp = .ok n.Normal) ∧
      ((RefreshSpline Magnitude s0).controlPoints.length ≤ p + 1 →
        (RefreshSpline Magnitude s0).NextPosition cp = .ok cp.Position ∧
        (RefreshSpline Magnitude s0).NextNormal cp = .ok cp.Normal) ∧
      (∀ q : Nat, p = q + 1 →
        ∃ pr, (RefreshSpline Magnitude s0).controlPoints[q]? = some pr ∧
          (RefreshSpline Magnitude s0).PreviousPosition cp = .ok pr.Position ∧
          (RefreshSpline Magnitude s0).PreviousNormal cp = .ok pr.Normal) ∧
      (p = 0 →
        (RefreshSpline Magnitude s0).PreviousPosition cp = .ok cp.Position ∧
        (RefreshSpline Magnitude s0).PreviousNormal cp = .ok cp.Normal) ∧
      ((∀ c ∈ s0.controlPoints, c.IsValid = true) →
        (RefreshSpline Magnitude s0).segmentPoints = (RefreshSpline Magnitude s0).controlPoints ∧
        cp.SegmentIndex = cp.ControlPointIndex) := by
  obtain ⟨p, hp, hcpi⟩ := segment_position Magnitude hidx hcp
  have hplt : p < (RefreshSpline Magnitude s0).controlPoints.length :=
    (List.getElem?_eq_some.1 hp).1
  refine ⟨p, hp, hcpi, ?_, ?_, ?_, ?_, ?_⟩
  · intro n hn
    rw [NextPosition_of_index _ cp p hcpi, NextNormal_of_index _ cp p hcpi, hn]
    exact ⟨rfl, rfl⟩
  · intro hl
    rw [NextPosition_of_index _ cp p hcpi, NextNormal_of_index _ cp p hcpi,
      List.getElem?_eq_none hl]
    exact ⟨rfl, rfl⟩
  · intro q hq
    subst hq
    have hqlt : q < (RefreshSpline Magnitude s0).controlPoints.length := by omega
    exact ⟨_, List.getElem?_eq_getElem hqlt,
      PreviousPosition_of_index_succ _ cp _ q hcpi (List.getElem?_eq_getElem hqlt),
      PreviousNormal_of_index_succ _ cp _ q hcpi (List.getElem?_eq_getElem hqlt)⟩
  · intro h0
    subst h0
    exact ⟨PreviousPosition_of_index_zero _ cp (by simpa using hcpi),
      PreviousNormal_of_index_zero _ cp (by simpa using hcpi)⟩
  · intro hall
    have hsc := RefreshSpline_all_valid Magnitude s0 hall
    refine ⟨hsc, ?_⟩
    obtain ⟨i, hi⟩ := List.mem_iff_getElem?.1 hcp
    have h1 := RefreshSpline_segmentIndex Magnitude s0 i cp hi
    rw [hsc] at hi
    have h2 := (RefreshSpline_indexed Magnitude hidx).index_eq hi
    rw [h1, h2]

/-- C7 (witness): the hypotheses of the amended C7 hold of the control points at
`(0,0,0)`, `(5,0,0)` (invalid), `(1,0,0)` and the first segment. -/
theorem C7_witness :
    (exampleGap ℝ).Indexed ∧
      axisPoint 0 0 0 0 true ∈ (RefreshSpline Magnitude (exampleGap ℝ)).segmentPoints ∧
      ∃ p : Nat,
        (RefreshSpline Magnitude (exampleGap ℝ)).controlPoints[p]?
          = some (axisPoint 0 0 0 0 true) ∧
        (axisPoint (0 : ℝ) 0 0 0 true).ControlPointIndex = (p : Int) ∧
        (∀ n, (RefreshSpline Magnitude (exampleGap ℝ)).controlPoints[p + 1]? = some n →
          (RefreshSpline Magnitude (exampleGap ℝ)).NextPosition (axisPoint 0 0 0 0 true)
            = .ok n.Position ∧
          (RefreshSpline Magnitude (exampleGap ℝ)).NextNormal (axisPoint 0 0 0 0 true)
            = .ok n.Normal) ∧
        (p = 0 →
          (RefreshSpline Magnitude (exampleGap ℝ)).PreviousPosition (axisPoint 0 0 0 0 true)
            = .ok (axisPoint (0 : ℝ) 0 0 0 true).Position ∧
          (RefreshSpline Magnitude (exampleGap ℝ)).PreviousNormal (axisPoint 0 0 0 0 true)
            = .ok (axisPoint (0 : ℝ) 0 0 0 true).Normal) := by
  have hmem : axisPoint 0 0 0 0 true ∈ (RefreshSpline Magnitude (exampleGap ℝ)).segmentPoints := by
    rw [exampleGap_refresh, exampleGapRefreshed_segmentPoints]
    simp
  obtain ⟨p, h1, h2, h3, _, _, h6, _⟩ :=
    C7_neighbours_follow_controlPoints (exampleGap ℝ) exampleGap_indexed _ hmem
  exact ⟨exampleGap_indexed, hmem, p, h1, h2, h3, h6⟩

/-- C7 (counterexample): for control points at `(0,0,0)`, `(5,0,0)` (invalid) and
`(1,0,0)`, the first segment has `SegmentIndex + 1 = 1 < 2 = segments.size()` and
`segments[1]` is at `(1,0,0)`, but its `NextPosition` is `(5,0,0)`, the position of
the invalid control point that follows it in `controlPoints`. -/
theorem C7_counterexample :
    (exampleGap ℝ).Indexed ∧
      axisPoint 0 0 0 0 true ∈ (RefreshSpline Magnitude (exampleGap ℝ)).segmentPoints ∧
      (axisPoint (0 : ℝ) 0 0 0 true).SegmentIndex + 1
        < (RefreshSpline Magnitude (exampleGap ℝ)).segments.length ∧
      (RefreshSpline Magnitude (exampleGap ℝ)).segmentPoints[
          ((axisPoint (0 : ℝ) 0 0 0 true).SegmentIndex + 1).toNat]?
        = some (axisPoint 1 2 1 1 true) ∧
      (RefreshSpline Magnitude (exampleGap ℝ)).NextPosition (axisPoint 0 0 0 0 true)
        = .ok ⟨5, 0, 0⟩ ∧
      (⟨5, 0, 0⟩ : FastVector3 ℝ) ≠ (axisPoint (1 : ℝ) 2 1 1 true).Position := by
  rw [exampleGap_refresh, exampleGapRefreshed_segmentPoints]
  refine ⟨by simp [Indexed, exampleGap, axisPoint, List.range, List.range.loop], by simp,
    by simp [axisPoint, exampleGapRefreshed], by simp [axisPoint],
    exampleGap_neighbours.2, ?_⟩
  simp [axisPoint]

/-- C9: `CatmulRom` passes through its two inner samples: at `f = 0` it is `P0` and at
`f = 1` it is `P1`, whatever `T0` and `T1` are. -/
theorem C9_CatmulRom_endpoints (T0 P0 P1 T1 : FastVector3 ℝ) :
    CatmulRom T0 P0 P1 T1 0 = P0 ∧ CatmulRom T0 P0 P1 T1 1 = P1 := by
  constructor
  · cases P0
    simp [CatmulRom]
  · cases P1
    simp only [CatmulRom, FastVector3.mk.injEq]
    refine ⟨?_, ?_, ?_⟩ <;> ring

/-- C10: for a spline with exactly two control points `P0` and `P1`, both valid and
carrying their index, `InterpolateByLen 0.5` after `RefreshSpline` is the midpoint
`(P0.Position + P1.Position) / 2`. -/
theorem C10_two_points_midpoint (s0 : Spline ℝ) (P0 P1 : SplineControlPoint ℝ)
    (hcp : s0.controlPoints = [P0, P1]) (hidx : s0.Indexed)
    (hv0 : P0.IsValid = true) (hv1 : P1.IsValid = true) :
    (RefreshSpline Magnitude s0).InterpolateByLen 0.5
      = .ok ⟨(P0.Position.x + P1.Position.x) / 2, (P0.Position.y + P1.Position.y) / 2,
          (P0.Position.z + P1.Position.z) / 2⟩ := by
  have hi0 : P0.ControlPointIndex = ((0 : Nat) : Int) :=
    @Indexed.index_eq _ s0 hidx 0 P0 (by rw [hcp]; rfl)
  have hi1 : P1.ControlPointIndex = ((1 : Nat) : Int) :=
    @Indexed.index_eq _ s0 hidx 1 P1 (by rw [hcp]; rfl)
  rw [RefreshSpline_two s0 P0 P1 hcp hv0 hv1]
  have hd0 := Magnitude_nonneg (P1.Position - P0.Position)
  generalize hs : Spline.mk
      [P0.written 0 0, P1.written 1 (0 + Magnitude (P1.Position - P0.Position))]
      [0, 1] = sR
  have hc0 : sR.controlPoints[0]? = some (P0.written 0 0) := by
    rw [← hs]; rfl
  have hc1 : sR.controlPoints[1]?
      = some (P1.written 1 (0 + Magnitude (P1.Position - P0.Position))) := by
    rw [← hs]; rfl
  have hc2 : sR.controlPoints[2]? = none := by
    rw [← hs]; rfl
  have hsp : sR.segmentPoints
      = [P0.written 0 0, P1.written 1 (0 + Magnitude (P1.Position - P0.Position))] := by
    rw [← hs]; rfl
  have hprev : sR.PreviousPosition (P0.written 0 0)
      = .ok P0.Position := PreviousPosition_of_index_zero _ _ (by simpa using hi0)
  have hnext : sR.NextPosition (P0.written 0 0)
      = .ok P1.Position := by
    rw [NextPosition_of_index sR (P0.written 0 0) 0 hi0, hc1]
    rfl
  have hnext2 : sR.Next2Position (P0.written 0 0)
      = .ok P1.Position := by
    unfold Next2Position
    rw [NextControlPoint_of_index sR (P0.written 0 0) 0 hi0, hc1]
    simp only
    rw [NextPosition_of_index sR (P1.written 1 (0 + Magnitude (P1.Position - P0.Position))) 1 hi1,
      hc2]
    rfl
  by_cases hz : Magnitude (P1.Position - P0.Position) = 0
  · have hpos := (Magnitude_sub_eq_zero_iff _ _).1 hz
    have hl : sR.LenToSegment 0.5 = .ok (some (P0.written 0 0), 0) := by
      unfold LenToSegment
      rw [hsp]
      simp [scan, hz, SplineControlPoint.written]
    have hmid : ∀ v : FastVector3 ℝ, v = ⟨(v.x + v.x) / 2, (v.y + v.y) / 2, (v.z + v.z) / 2⟩ := by
      intro v
      cases v
      simp
    unfold InterpolateByLen
    rw [hl]
    simp only
    rw [Interpolate_zero _ _ hprev, ← hpos]
    exact congrArg Except.ok (hmid _)
  · have hpos : 0 < Magnitude (P1.Position - P0.Position) := lt_of_le_of_ne hd0 (Ne.symm hz)
    have hl : sR.LenToSegment 0.5 = .ok (some (P0.written 0 0), 0.5) := by
      unfold LenToSegment
      rw [hsp]
      have hc : Clamp01 (0.5 : ℝ) = 0.5 := Clamp01_of_mem (by norm_num) (by norm_num)
      have h1 : ¬ (0.5 * Magnitude (P1.Position - P0.Position) ≤ 0) := by
        intro h; linarith
      have h2 : 0.5 * Magnitude (P1.Position - P0.Position)
          ≤ Magnitude (P1.Position - P0.Position) := by linarith
      have h3 : 0.5 * Magnitude (P1.Position - P0.Position)
          / Magnitude (P1.Position - P0.Position) = 0.5 := by
        field_simp
      simp [scan, hc, h1, h2, vectorAt, h3, SplineControlPoint.written]
    unfold InterpolateByLen
    rw [hl]
    simp only
    rw [Interpolate_eq _ _ _ hprev hnext hnext2]
    exact congrArg Except.ok (CatmulRom_half _ _)

/-- C10 (witness): the hypotheses of C10 hold of the two valid control points at
`(0,0,0)` and `(4,0,0)`. -/
theorem C10_witness :
    (exampleTwo ℝ).controlPoints = [axisPoint 0 0 (-1) 0 true, axisPoint 4 1 (-1) 0 true] ∧
      (exampleTwo ℝ).Indexed ∧
      (axisPoint (0 : ℝ) 0 (-1) 0 true).IsValid = true ∧
      (axisPoint (4 : ℝ) 1 (-1) 0 true).IsValid = true ∧
      (RefreshSpline Magnitude (exampleTwo ℝ)).InterpolateByLen 0.5
        = .ok ⟨((axisPoint (0 : ℝ) 0 (-1) 0 true).Position.x
                + (axisPoint (4 : ℝ) 1 (-1) 0 true).Position.x) / 2,
              ((axisPoint (0 : ℝ) 0 (-1) 0 true).Position.y
                + (axisPoint (4 : ℝ) 1 (-1) 0 true).Position.y) / 2,
              ((axisPoint (0 : ℝ) 0 (-1) 0 true).Position.z
                + (axisPoint (4 : ℝ) 1 (-1) 0 true).Position.z) / 2⟩ :=
  ⟨rfl, exampleTwo_indexed, rfl, rfl,
    C10_two_points_midpoint (exampleTwo ℝ) _ _ rfl exampleTwo_indexed rfl rfl⟩

/-- C11 (amended): with the phantom tangents equal to the endpoints, `CatmulRom` is
`P0 + (-f^3 + 1.5 f^2 + 0.5 f) (P1 - P0)` on each axis, for every `f`; it equals the
linear interpolation `P0 + f (P1 - P0)` exactly when `P0 = P1` or `f` is 0, 1/2 or 1. -/
theorem C11_CatmulRom_duplicated_tangents (P0 P1 : FastVector3 ℝ) (f : ℝ) :
    CatmulRom P0 P0 P1 P1 f
        = ⟨P0.x + (-f ^ 3 + 1.5 * f ^ 2 + 0.5 * f) * (P1.x - P0.x),
           P0.y + (-f ^ 3 + 1.5 * f ^ 2 + 0.5 * f) * (P1.y - P0.y),
           P0.z + (-f ^ 3 + 1.5 * f ^ 2 + 0.5 * f) * (P1.z - P0.z)⟩ ∧
      (CatmulRom P0 P0 P1 P1 f
          = ⟨P0.x + f * (P1.x - P0.x), P0.y + f * (P1.y - P0.y), P0.z + f * (P1.z - P0.z)⟩
        ↔ P0 = P1 ∨ f = 0 ∨ f = 1 / 2 ∨ f = 1) := by
  have hform : CatmulRom P0 P0 P1 P1 f
      = ⟨P0.x + (-f ^ 3 + 1.5 * f ^ 2 + 0.5 * f) * (P1.x - P0.x),
         P0.y + (-f ^ 3 + 1.5 * f ^ 2 + 0.5 * f) * (P1.y - P0.y),
         P0.z + (-f ^ 3 + 1.5 * f ^ 2 + 0.5 * f) * (P1.z - P0.z)⟩ := by
    simp only [CatmulRom, FastVector3.mk.injEq]
    refine ⟨?_, ?_, ?_⟩ <;> ring
  refine ⟨hform, ?_⟩
  rw [hform]
  have key : ∀ a b : ℝ, a + (-f ^ 3 + 1.5 * f ^ 2 + 0.5 * f) * (b - a) = a + f * (b - a)
      ↔ a = b ∨ f = 0 ∨ f = 1 / 2 ∨ f = 1 := by
    intro a b
    have e : a + (-f ^ 3 + 1.5 * f ^ 2 + 0.5 * f) * (b - a) - (a + f * (b - a))
        = (a - b) * f * (f - 1 / 2) * (f - 1) := by ring
    constructor
    · intro h
      have h0 : (a - b) * f * (f - 1 / 2) * (f - 1) = 0 := by rw [← e, h, sub_self]
      rcases mul_eq_zero.1 h0 with h1 | h1
      · rcases mul_eq_zero.1 h1 with h2 | h2
        · rcases mul_eq_zero.1 h2 with h3 | h3
          · left; linarith
          · right; left; exact h3
        · right; right; left; linarith
      · right; right; right; linarith
    · intro h
      have h0 : (a - b) * f * (f - 1 / 2) * (f - 1) = 0 := by
        rcases h with h | h | h | h
        · rw [h]; ring
        · rw [h]; ring
        · rw [h]; ring
        · rw [h]; ring
      linarith
  simp only [FastVector3.mk.injEq]
  constructor
  · rintro ⟨hx, hy, hz⟩
    by_cases hf : f = 0 ∨ f = 1 / 2 ∨ f = 1
    · exact Or.inr hf
    · left
      have ex : P0.x = P1.x := ((key _ _).1 hx).resolve_right hf
      have ey : P0.y = P1.y := ((key _ _).1 hy).resolve_right hf
      have ez : P0.z = P1.z := ((key _ _).1 hz).resolve_right hf
      cases P0; cases P1
      simp_all
  · intro h
    rcases h with h | h
    · subst h
      simp
    · exact ⟨(key _ _).2 (Or.inr h), (key _ _).2 (Or.inr h), (key _ _).2 (Or.inr h)⟩

/-- C11 (counterexample): with `P0 = (0,0,0)`, `P1 = (4,0,0)` and `f = 1/4`, which is in
`[0,1]`, `CatmulRom P0 P0 P1 P1 f` is `(13/16, 0, 0)` and not the linear interpolation
`(1, 0, 0)`. -/
theorem C11_counterexample :
    (0 : ℝ) ≤ 1 / 4 ∧ (1 / 4 : ℝ) ≤ 1 ∧
      CatmulRom (⟨0, 0, 0⟩ : FastVector3 ℝ) ⟨0, 0, 0⟩ ⟨4, 0, 0⟩ ⟨4, 0, 0⟩ (1 / 4)
        = ⟨13 / 16, 0, 0⟩ ∧
      (⟨13 / 16, 0, 0⟩ : FastVector3 ℝ)
        ≠ ⟨0 + 1 / 4 * (4 - 0), 0 + 1 / 4 * (0 - 0), 0 + 1 / 4 * (0 - 0)⟩ := by
  refine ⟨by norm_num, by norm_num, ?_, ?_⟩
  · simp only [CatmulRom, FastVector3.mk.injEq]
    refine ⟨?_, ?_, ?_⟩ <;> norm_num
  · simp only [ne_eq, FastVector3.mk.injEq, not_and]
    intro h
    norm_num at h

/-- C12: for the control points added at `(0,0,0)`, `(1,0,0)`, `(2,0,0)`, `(3,0,0)` with
normal `(0,1,0)`, all valid, the distances after `RefreshSpline` are 0, 1, 2, 3;
`LenToSegment (2/3)` has `len = 2`, its scan stops at `segments[2]`, and it returns
`segments[1]` with `localF = 1`; `InterpolateByLen (2/3)` is `(2,0,0)`. -/
theorem C12_four_points_scenario :
    exampleLine ℝ
        = Prod.fst (AddControlPoint
            (Prod.fst (AddControlPoint
              (Prod.fst (AddControlPoint
                (Prod.fst (AddControlPoint Spline.new
                  (axisPoint 0 (-1) (-1) 0 true) ⟨0, 0, 0⟩ ⟨0, 1, 0⟩))
                (axisPoint 0 (-1) (-1) 0 true) ⟨1, 0, 0⟩ ⟨0, 1, 0⟩))
              (axisPoint 0 (-1) (-1) 0 true) ⟨2, 0, 0⟩ ⟨0, 1, 0⟩))
            (axisPoint 0 (-1) (-1) 0 true) ⟨3, 0, 0⟩ ⟨0, 1, 0⟩) ∧
      (RefreshSpline Magnitude (exampleLine ℝ)).segmentPoints
        = [axisPoint 0 0 0 0 true, axisPoint 1 1 1 1 true, axisPoint 2 2 2 2 true,
           axisPoint 3 3 3 3 true] ∧
      (RefreshSpline Magnitude (exampleLine ℝ)).segmentPoints.map (fun c => c.Dist)
        = [0, 1, 2, 3] ∧
      Clamp01 (2 / 3 : ℝ) * (axisPoint (3 : ℝ) 3 3 3 true).Dist = 2 ∧
      scan (2 : ℝ) (RefreshSpline Magnitude (exampleLine ℝ)).segmentPoints 0
        = (some (axisPoint 2 2 2 2 true), 2) ∧
      (RefreshSpline Magnitude (exampleLine ℝ)).LenToSegment (2 / 3)
        = .ok (some (axisPoint 1 1 1 1 true), 1) ∧
      (RefreshSpline Magnitude (exampleLine ℝ)).InterpolateByLen (2 / 3) = .ok ⟨2, 0, 0⟩ := by
  rw [exampleLine_refresh, exampleLineRefreshed_segmentPoints]
  exact ⟨exampleLine_built, rfl, by simp [axisPoint], exampleLine_clamp, exampleLine_scan,
    exampleLine_lenToSegment, exampleLine_interpolate⟩

/-- C14: `AddControlPoint pos up` on a spline with `k` control points gives `k + 1`
control points, the first `k` unchanged, the last (the returned object) with
`Position = pos`, `Normal = up` and `ControlPointIndex = k`; `segments` is unchanged. -/
theorem C14_AddControlPoint {α : Type} (s : Spline α) (fresh : SplineControlPoint α)
    (pos up : FastVector3 α) :
    (s.AddControlPoint fresh pos up).1.controlPoints.length = s.controlPoints.length + 1 ∧
      (s.AddControlPoint fresh pos up).1.controlPoints.take s.controlPoints.length
        = s.controlPoints ∧
      (s.AddControlPoint fresh pos up).1.controlPoints[s.controlPoints.length]?
        = some (s.AddControlPoint fresh pos up).2 ∧
      (s.AddControlPoint fresh pos up).2.Position = pos ∧
      (s.AddControlPoint fresh pos up).2.Normal = up ∧
      (s.AddControlPoint fresh pos up).2.ControlPointIndex = (s.controlPoints.length : Int) ∧
      (s.AddControlPoint fresh pos up).1.segments = s.segments := by
  refine ⟨?_, ?_, ?_, rfl, rfl, ?_, rfl⟩
  · simp [AddControlPoint]
  · simp [AddControlPoint]
  · simp [AddControlPoint]
  · simp [AddControlPoint]

/-- C15: in every state reached from a newly constructed spline by `AddControlPoint`,
`RefreshSpline` and `Clear`, the control point at position `i` has
`ControlPointIndex = i`; so the indices are strictly increasing in insertion order and
pairwise distinct. -/
theorem C15_ControlPointIndex_is_position {α : Type} [LinearOrderedField α]
    (mag : FastVector3 α → α) (s : Spline α) (h : Reachable mag s) :
    (∀ (i : Nat) (c : SplineControlPoint α),
        s.controlPoints[i]? = some c → c.ControlPointIndex = (i : Int)) ∧
      (s.controlPoints.map (fun c => c.ControlPointIndex)).Pairwise (fun a b => a < b) ∧
      (s.controlPoints.map (fun c => c.ControlPointIndex)).Nodup := by
  have hidx : s.Indexed := by
    induction h with
    | constructed => exact new_indexed
    | addControlPoint s fresh pos up _ ih => exact AddControlPoint_indexed s fresh pos up ih
    | refreshSpline s _ ih => exact RefreshSpline_indexed mag ih
    | clear s _ _ => exact Clear_indexed s
  have hp : (s.controlPoints.map (fun c => c.ControlPointIndex)).Pairwise
      (fun a b => a < b) := by
    unfold Indexed at hidx
    rw [hidx]
    refine List.Pairwise.map _ ?_ (List.pairwise_lt_range _)
    intro a b hab
    exact Int.ofNat_lt.2 hab
  refine ⟨fun i c hc => hidx.index_eq hc, hp, ?_⟩
  exact hp.imp (fun hab => ne_of_lt hab)

/-- C15 (witness): the state after one `AddControlPoint` on a new spline is reached. -/
theorem C15_witness :
    Reachable Magnitude
        (Prod.fst (AddControlPoint (Spline.new : Spline ℝ) (axisPoint 0 (-1) (-1) 0 true)
          ⟨0, 0, 0⟩ ⟨0, 1, 0⟩)) ∧
      ((Prod.fst (AddControlPoint (Spline.new : Spline ℝ) (axisPoint 0 (-1) (-1) 0 true)
          ⟨0, 0, 0⟩ ⟨0, 1, 0⟩)).controlPoints.map (fun c => c.ControlPointIndex)).Nodup :=
  ⟨Reachable.addControlPoint _ _ _ _ Reachable.constructed,
    (C15_ControlPointIndex_is_position Magnitude _
      (Reachable.addControlPoint _ _ _ _ Reachable.constructed)).2.2⟩

/-- C16: `operator[]` returns the segment at `index` when `0 <= index < segments.size()`
and null for every other index, in particular for every negative index and for index
0 of a spline without segments. -/
theorem C16_subscript {α : Type} (s : Spline α) (hwf : s.WF) (index : Int) :
    (0 ≤ index ∧ index < (s.segments.length : Int) →
        ∃ c, s.segmentPoints[index.toNat]? = some c ∧ s.subscript index = some c) ∧
      (¬ (0 ≤ index ∧ index < (s.segments.length : Int)) → s.subscript index = none) ∧
      (index < 0 → s.subscript index = none) ∧
      (s.segments = [] → s.subscript 0 = none) := by
  have hout : ¬ (0 ≤ index ∧ index < (s.segments.length : Int)) → s.subscript index = none := by
    intro h
    unfold subscript
    rw [if_neg]
    intro hc
    apply h
    omega
  refine ⟨?_, hout, ?_, ?_⟩
  · intro h
    have hlt : index.toNat < s.segments.length := by omega
    have hsp : index.toNat < s.segmentPoints.length := by
      rw [segmentPoints_length s hwf]; exact hlt
    refine ⟨s.segmentPoints[index.toNat], List.getElem?_eq_getElem hsp, ?_⟩
    have hg : index > -1 ∧ index.toNat < s.segments.length := ⟨by omega, hlt⟩
    unfold subscript
    rw [if_pos hg, ← List.getElem?_eq_getElem hsp]
    exact (filterMap_getElem?_of_lt _ _ hwf.2 _).symm
  · intro h
    exact hout (fun hc => by omega)
  · intro h
    unfold subscript
    simp [h]

/-- C16 (witness): the hypothesis of C16 holds of the refreshed control points at
`(0,0,0)`, `(5,0,0)` (invalid), `(1,0,0)`, whose segments are the first and the last
control point: index 1 is in range and gives the second segment, the control point at
`(1,0,0)`; index 2 and index -1 give null. -/
theorem C16_witness :
    (exampleGapRefreshed ℝ).WF ∧
      ((0 : Int) ≤ 1 ∧ (1 : Int) < ((exampleGapRefreshed ℝ).segments.length : Int)) ∧
      (exampleGapRefreshed ℝ).segmentPoints[(1 : Int).toNat]? = some (axisPoint 1 2 1 1 true) ∧
      (exampleGapRefreshed ℝ).subscript 1 = some (axisPoint 1 2 1 1 true) ∧
      (exampleGapRefreshed ℝ).subscript 2 = none ∧
      (exampleGapRefreshed ℝ).subscript (-1) = none := by
  have hin : (0 : Int) ≤ 1 ∧ (1 : Int) < ((exampleGapRefreshed ℝ).segments.length : Int) := by
    simp [exampleGapRefreshed]
  obtain ⟨c, hc, hs⟩ := (C16_subscript (exampleGapRefreshed ℝ) exampleGapRefreshed_WF 1).1 hin
  have h2 := (C16_subscript (exampleGapRefreshed ℝ) exampleGapRefreshed_WF 2).2.1
    (by simp [exampleGapRefreshed])
  have hneg := (C16_subscript (exampleGapRefreshed ℝ) exampleGapRefreshed_WF (-1)).2.2.1
    (by norm_num)
  have hsp : (exampleGapRefreshed ℝ).segmentPoints[(1 : Int).toNat]?
      = some (axisPoint 1 2 1 1 true) := by
    rw [exampleGapRefreshed_segmentPoints]
    rfl
  have e : c = axisPoint 1 2 1 1 true := by
    rw [hsp] at hc
    exact (Option.some.inj hc).symm
  subst e
  exact ⟨exampleGapRefreshed_WF, hin, hsp, hs, h2, hneg⟩

/-- C17: in a spline whose control points carry their index, for the control point `cp`
at position `i`, `NextControlPoint` returns `controlPoints[i + 1]` when
`i + 1 < controlPoints.size()` and null otherwise, and `PreviousControlPoint` returns
`controlPoints[i - 1]` when `i >= 1` and null otherwise; validity and `segments` play
no part. -/
theorem C17_control_point_neighbours {α : Type} (s : Spline α) (hidx : s.Indexed) (i : Nat)
    (cp : SplineControlPoint α) (hcp : s.controlPoints[i]? = some cp) :
    (i + 1 < s.controlPoints.length →
        ∃ n, s.controlPoints[i + 1]? = some n ∧ s.NextControlPoint cp = .ok (some n)) ∧
      (s.controlPoints.length ≤ i + 1 → s.NextControlPoint cp = .ok none) ∧
      (∀ j : Nat, i = j + 1 →
        ∃ p, s.controlPoints[j]? = some p ∧ s.PreviousControlPoint cp = .ok (some p)) ∧
      (i = 0 → s.PreviousControlPoint cp = .ok none) := by
  have hcpi := hidx.index_eq hcp
  have hilt : i < s.controlPoints.length := (List.getElem?_eq_some.1 hcp).1
  refine ⟨?_, ?_, ?_, ?_⟩
  · intro h
    exact ⟨_, List.getElem?_eq_getElem h, by
      rw [NextControlPoint_of_index s cp i hcpi, List.getElem?_eq_getElem h]⟩
  · intro h
    rw [NextControlPoint_of_index s cp i hcpi, List.getElem?_eq_none h]
  · intro j hj
    subst hj
    have hjlt : j < s.controlPoints.length := by omega
    exact ⟨_, List.getElem?_eq_getElem hjlt,
      PreviousControlPoint_of_index_succ s cp _ j hcpi (List.getElem?_eq_getElem hjlt)⟩
  · intro h0
    subst h0
    exact PreviousControlPoint_of_index_zero s cp (by simpa using hcpi)

/-- C17 (witness): the hypotheses of C17 hold of the second of the four control points
at `(0,0,0)`, `(1,0,0)`, `(2,0,0)`, `(3,0,0)`. -/
theorem C17_witness :
    (exampleLine ℝ).Indexed ∧
      (exampleLine ℝ).controlPoints[1]? = some (axisPoint 1 1 (-1) 0 true) ∧
      (exampleLine ℝ).NextControlPoint (axisPoint 1 1 (-1) 0 true)
        = .ok (some (axisPoint 2 2 (-1) 0 true)) ∧
      (exampleLine ℝ).PreviousControlPoint (axisPoint 1 1 (-1) 0 true)
        = .ok (some (axisPoint 0 0 (-1) 0 true)) := by
  have h := C17_control_point_neighbours (exampleLine ℝ) exampleLine_indexed 1
    (axisPoint 1 1 (-1) 0 true) rfl
  obtain ⟨n, hn, hnext⟩ := h.1 (by simp [exampleLine])
  obtain ⟨p, hp, hprev⟩ := h.2.2.1 0 rfl
  have en : n = axisPoint 2 2 (-1) 0 true := by
    simpa [exampleLine] using hn.symm
  have ep : p = axisPoint 0 0 (-1) 0 true := by
    simpa [exampleLine] using hp.symm
  subst en; subst ep
  exact ⟨exampleLine_indexed, rfl, hnext, hprev⟩

/-- C18 (the code at the failing input): the fourth of the control points at `(0,0,0)`,
`(1,0,0)`, `(2,0,0)`, `(3,0,0)`, with `ControlPointIndex = 3`, is passed to the lookups
after `Clear`, when `controlPoints` is empty and both neighbour indices, 4 and 2, lie
outside `[0, 0)`.  `NextPosition` and `NextNormal` return the point's own fields and
`PreviousControlPoint` returns null, but `PreviousPosition` and `PreviousNormal`, which
guard only `i < 0`, reach `controlPoints.at(2)` and throw `std::out_of_range`. -/
theorem C18_previous_lookup_throws :
    (exampleLine ℝ).controlPoints[3]? = some (axisPoint 3 3 (-1) 0 true) ∧
      (exampleLine ℝ).Clear.controlPoints.length = 0 ∧
      (exampleLine ℝ).Clear.NextPosition (axisPoint 3 3 (-1) 0 true)
        = .ok (axisPoint (3 : ℝ) 3 (-1) 0 true).Position ∧
      (exampleLine ℝ).Clear.NextNormal (axisPoint 3 3 (-1) 0 true)
        = .ok (axisPoint (3 : ℝ) 3 (-1) 0 true).Normal ∧
      (exampleLine ℝ).Clear.PreviousControlPoint (axisPoint 3 3 (-1) 0 true) = .ok none ∧
      (exampleLine ℝ).Clear.PreviousPosition (axisPoint 3 3 (-1) 0 true)
        = .error .outOfRange ∧
      (exampleLine ℝ).Clear.PreviousNormal (axisPoint 3 3 (-1) 0 true)
        = .error .outOfRange := by
  refine ⟨rfl, rfl, ?_, ?_, ?_, ?_, ?_⟩
  · simp [NextPosition, sizeLE, axisPoint, Clear]
  · simp [NextNormal, sizeLE, axisPoint, Clear]
  · simp [PreviousControlPoint, Clear]
  · simp [PreviousPosition, vectorAt, axisPoint, Clear, Except.map]
  · simp [PreviousNormal, vectorAt, axisPoint, Clear, Except.map]

/-- C20: after `RefreshSpline` with at least one segment, for every real `t`, with
`len = Clamp01 t * segments.back().Dist`, `LenToSegment t` returns a segment
`segments[j]` and a `localF` with `0 <= localF <= 1`, and either `j = 0`, `localF = 0`
and `len = 0`, or `segments[j].Dist < len <= segments[j+1].Dist` and
`segments[j].Dist + localF * (segments[j+1].Dist - segments[j].Dist) = len`. -/
theorem C20_LenToSegment_bracket (s0 : Spline ℝ) (t : ℝ)
    (hne : (RefreshSpline Magnitude s0).segments ≠ []) :
    ∃ back, (RefreshSpline Magnitude s0).segmentPoints.getLast? = some back ∧
      ∃ (j : Nat) (c : SplineControlPoint ℝ) (localF : ℝ),
        (RefreshSpline Magnitude s0).LenToSegment t = .ok (some c, localF) ∧
        (RefreshSpline Magnitude s0).segmentPoints[j]? = some c ∧
        c.SegmentIndex = (j : Int) ∧
        0 ≤ localF ∧ localF ≤ 1 ∧
        ((j = 0 ∧ localF = 0 ∧ Clamp01 t * back.Dist = 0) ∨
          ∃ next, (RefreshSpline Magnitude s0).segmentPoints[j + 1]? = some next ∧
            c.Dist < Clamp01 t * back.Dist ∧ Clamp01 t * back.Dist ≤ next.Dist ∧
            c.Dist + localF * (next.Dist - c.Dist) = Clamp01 t * back.Dist) := by
  obtain ⟨back, hb⟩ :=
    getLast?_isSome_of_ne_nil _ (RefreshSpline_segmentPoints_ne_nil Magnitude s0 hne)
  have hf := RefreshSpline_fresh Magnitude s0
  have hbi : (RefreshSpline Magnitude s0).segmentPoints[
      (RefreshSpline Magnitude s0).segmentPoints.length - 1]? = some back := by
    rw [← List.getLast?_eq_getElem?]; exact hb
  have hback0 : 0 ≤ back.Dist := fresh_nonneg Magnitude Magnitude_nonneg hf hbi
  have hlen0 : 0 ≤ Clamp01 t * back.Dist := mul_nonneg (Clamp01_nonneg t) hback0
  obtain ⟨k, seg, hk, hseg, hleast, _, hsi, hz, hp⟩ :=
    LenToSegment_fresh_scan Magnitude Magnitude_nonneg _ hf t back hb
  refine ⟨back, hb, ?_⟩
  by_cases hk0 : k = 0
  · subst hk0
    have hd : seg.Dist = 0 := hf.1 seg (by rw [List.head?_eq_getElem?]; exact hk)
    refine ⟨0, seg, 0, hz rfl, hk, hsi, le_refl _, zero_le_one, Or.inl ⟨rfl, rfl, ?_⟩⟩
    rw [hd] at hseg
    exact le_antisymm hseg hlen0
  · obtain ⟨prev, hprev, _, hr⟩ := hp hk0
    have hlt : prev.Dist < Clamp01 t * back.Dist := hleast (k - 1) prev (by omega) hprev
    have hpos : 0 < seg.Dist - prev.Dist := by linarith
    have hk' : (RefreshSpline Magnitude s0).segmentPoints[k - 1 + 1]? = some seg := by
      have e : k - 1 + 1 = k := by omega
      rw [e]; exact hk
    refine ⟨k - 1, prev, _, hr, hprev, hf.2.2 _ prev hprev, ?_, ?_, Or.inr ⟨seg, hk', hlt, hseg, ?_⟩⟩
    · exact div_nonneg (by linarith) (le_of_lt hpos)
    · rw [div_le_one hpos]; linarith
    · rw [div_mul_cancel₀ _ (ne_of_gt hpos)]
      ring

/-- C20 (witness): the hypothesis of C20 holds of the control points at `(0,0,0)`,
`(5,0,0)` (invalid), `(1,0,0)`; at `t = 1` the returned `localF` lies in `[0, 1]`. -/
theorem C20_witness :
    (RefreshSpline Magnitude (exampleGap ℝ)).segments ≠ [] ∧
      ∃ (c : SplineControlPoint ℝ) (localF : ℝ),
        (RefreshSpline Magnitude (exampleGap ℝ)).LenToSegment 1 = .ok (some c, localF) ∧
        0 ≤ localF ∧ localF ≤ 1 := by
  obtain ⟨_, _, _, c, localF, h1, _, _, h2, h3, _⟩ :=
    C20_LenToSegment_bracket (exampleGap ℝ) 1 exampleGap_segments_ne_nil
  exact ⟨exampleGap_segments_ne_nil, c, localF, h1, h2, h3⟩

end Spline

end Qosmetics
